import Mathlib

/-!
# Gas refund and fee settlement of the EVM keeper (`x/evm/keeper/gas.go`)

A shallow embedding of `GasToRefund`, `RefundExcessGas`, `BurnConsumedGas`,
`ResetGasMeterAndConsumeGas` and `GetEthIntrinsicGas`, followed by the properties
proved about them.

Conventions of the embedding:

* a Go `uint64` is a `Nat` (below `2 ^ 64`), a `*big.Int` is an `Int`;
* a Go panic is the result `none` of an `Option`; a panic of the gas meter is
  returned next to the meter it leaves, which is still read after the panic;
* a Go function that returns `error` and works on the context returns the pair of
  its error (`none` for `nil`) and the context it leaves behind;
* the bank keeper is the Go interface `k.bankKeeper`: a record of operations over
  an arbitrary ledger state.
-/

namespace Ethermint

/-! ## Refund calculator -/

/-- Function `GasToRefund` of `gas.go`: `gasConsumed / refundQuotient` capped by
`availableRefund`.  The Go division panics for a zero divisor, which is the
result `none`.  On `uint64` operands the quotient is again a `uint64`, so no
reduction modulo `2 ^ 64` takes place. -/
def GasToRefund (availableRefund gasConsumed refundQuotient : Nat) : Option Nat :=
  if refundQuotient = 0 then none
  else
    let refund := gasConsumed / refundQuotient
    if refund > availableRefund then some availableRefund
    else some refund

/-! ## SDK values -/

/-- An account address (`sdk.AccAddress`, `common.Address`): the bytes of the
address, read as a natural number. -/
abbrev Address := Nat

/-- The coin of the SDK (`sdk.Coin`): a denomination and an `sdk.Int` amount. -/
structure Coin where
  Denom : String
  Amount : Int
deriving DecidableEq, Repr

/-- Bit length that an `sdk.Int` may not exceed. -/
def maxBitLen : Nat := 256

/-- The values an `sdk.Int` can hold: magnitude below `2 ^ maxBitLen`. -/
def IsSdkInt (i : Int) : Prop := i.natAbs < 2 ^ maxBitLen

instance (i : Int) : Decidable (IsSdkInt i) := by
  unfold IsSdkInt; infer_instance

/-- Library function `sdk.NewIntFromBigInt`: panics when the bit length of the
argument exceeds `maxBitLen`. -/
def NewIntFromBigInt (i : Int) : Option Int :=
  if i.natAbs < 2 ^ maxBitLen then some i else none

/-- The characters a denomination may start with: the letters `a-z` and `A-Z`. -/
def isDenomLetter (c : Char) : Bool :=
  (decide (97 ≤ c.toNat) && decide (c.toNat ≤ 122))
    || (decide (65 ≤ c.toNat) && decide (c.toNat ≤ 90))

/-- The characters a denomination may go on with: letters, the digits `0-9` and the
characters `/`, `:`, `.`, `_` and `-`. -/
def isDenomChar (c : Char) : Bool :=
  isDenomLetter c || (decide (48 ≤ c.toNat) && decide (c.toNat ≤ 57))
    || c = '/' || c = ':' || c = '.' || c = '_' || c = '-'

/-- Library function `sdk.ValidateDenom`, `true` when it returns no error: the
denomination matches `[a-zA-Z][a-zA-Z0-9/:._-]{2,127}` from its first to its last
character. -/
def ValidateDenom (denom : String) : Bool :=
  match denom.data with
  | [] => false
  | c :: cs =>
    isDenomLetter c && decide (2 ≤ cs.length) && decide (cs.length ≤ 127) && cs.all isDenomChar

/-- Library function `sdk.NewCoin`: panics when `Coin.Validate` fails, that is on a
denomination that `sdk.ValidateDenom` rejects and on a negative amount. -/
def NewCoin (denom : String) (amount : Int) : Option Coin :=
  if ValidateDenom denom = false then none
  else if amount < 0 then none
  else some ⟨denom, amount⟩

/-- Library method `Coin.IsLT`: panics when the two denominations differ. -/
def Coin.IsLT (coin other : Coin) : Option Bool :=
  if coin.Denom ≠ other.Denom then none else some (decide (coin.Amount < other.Amount))

/-- Library function `sdk.NewCoins` applied to one coin, which `sdk.NewCoin` built or the
ledger reported as a balance: a zero coin is dropped, a negative coin makes the
constructor panic. -/
def NewCoins (coin : Coin) : Option (List Coin) :=
  if coin.Amount = 0 then some []
  else if coin.Amount < 0 then none
  else some [coin]

/-- Library method `Coins.AmountOf`: the amount a coin set holds in one denomination. -/
def AmountOf (amt : List Coin) (denom : String) : Int :=
  ((amt.filter (fun c => c.Denom = denom)).map Coin.Amount).sum

/-- Error values.  `Wrap` is `errorsmod.Wrap` / `errorsmod.Wrapf`; its description
is the format string of the source, the formatted arguments are not modelled. -/
inductive Error where
  | ErrInvalidRefund
  | ErrInsufficientFunds
  | ErrUnauthorized
  | Wrap (cause : Error) (description : String)
deriving DecidableEq, Repr

/-! ## Collaborators of the keeper -/

/-- The `bankKeeper` interface of the keeper, over an arbitrary ledger state `σ`.
`GetBalance` reads; the other two return their error and the ledger they leave. -/
structure BankKeeper (σ : Type) where
  GetBalance : σ → Address → String → Coin
  SendCoinsFromModuleToAccount : σ → String → Address → List Coin → Option Error × σ
  BurnCoins : σ → String → List Coin → Option Error × σ

/-- Module parameters read by the keeper. -/
structure Params where
  EvmDenom : String

/-- The keeper with what `gas.go` uses of it.  `FeeBurner` and `FeeBurnerAccount`
are the constants `types.FeeBurner` (name of the fee burner module) and
`types.FeeBurnerAccount` (address of its account); they are declared outside the
source files at hand and are parameters here. -/
structure Keeper (σ : Type) where
  bankKeeper : BankKeeper σ
  GetParams : σ → Params
  FeeBurner : String
  FeeBurnerAccount : Address

/-- The fields of `core.Message` of the data model: sender, gas price, payload
bytes and access list. -/
structure Message where
  From : Address
  GasPrice : Int
  Data : List Nat
  AccessList : List (Address × List Nat)

/-- A state-changing call received by a bank keeper. -/
inductive BankCall where
  | SendCoinsFromModuleToAccount (senderModule : String) (recipientAddr : Address)
      (amt : List Coin)
  | BurnCoins (moduleName : String) (amt : List Coin)
deriving DecidableEq, Repr

/-- A bank keeper that behaves as `b` and appends every state-changing call it
receives to a log kept next to the ledger. -/
def BankKeeper.recording {σ : Type} (b : BankKeeper σ) : BankKeeper (σ × List BankCall) where
  GetBalance := fun s addr denom => b.GetBalance s.1 addr denom
  SendCoinsFromModuleToAccount := fun s senderModule recipientAddr amt =>
    ((b.SendCoinsFromModuleToAccount s.1 senderModule recipientAddr amt).1,
     ((b.SendCoinsFromModuleToAccount s.1 senderModule recipientAddr amt).2,
      s.2 ++ [BankCall.SendCoinsFromModuleToAccount senderModule recipientAddr amt]))
  BurnCoins := fun s moduleName amt =>
    ((b.BurnCoins s.1 moduleName amt).1,
     ((b.BurnCoins s.1 moduleName amt).2, s.2 ++ [BankCall.BurnCoins moduleName amt]))

/-- The keeper `k` with its bank keeper replaced by the recording one. -/
def Keeper.recording {σ : Type} (k : Keeper σ) : Keeper (σ × List BankCall) where
  bankKeeper := k.bankKeeper.recording
  GetParams := fun s => k.GetParams s.1
  FeeBurner := k.FeeBurner
  FeeBurnerAccount := k.FeeBurnerAccount

/-- Balance of `addr` in `denom` as the bank keeper reports it. -/
def Keeper.balance {σ : Type} (k : Keeper σ) (ctx : σ) (addr : Address) (denom : String) : Int :=
  (k.bankKeeper.GetBalance ctx addr denom).Amount

/-- Modelled from the spec: the contract of the Ledger collaborator behind
`bankKeeper` (`get_balance`, `transfer`, `burn`), whose implementation is not among
the source files.  A balance is reported in the denomination asked for; a transfer
out of the fee burner module that succeeds takes the coins from the fee burner
account and then gives them to the recipient; a burn that succeeds takes them from
the fee burner account; a call that fails leaves every balance as it was. -/
structure Keeper.Lawful {σ : Type} (k : Keeper σ) : Prop where
  getBalance_denom : ∀ ctx addr denom, (k.bankKeeper.GetBalance ctx addr denom).Denom = denom
  send_ok : ∀ ctx recipient amt ctx',
    k.bankKeeper.SendCoinsFromModuleToAccount ctx k.FeeBurner recipient amt = (none, ctx') →
    ∀ addr denom, k.balance ctx' addr denom =
      k.balance ctx addr denom
        - (if addr = k.FeeBurnerAccount then AmountOf amt denom else 0)
        + (if addr = recipient then AmountOf amt denom else 0)
  send_fail : ∀ ctx recipient amt err ctx',
    k.bankKeeper.SendCoinsFromModuleToAccount ctx k.FeeBurner recipient amt = (some err, ctx') →
    ∀ addr denom, k.balance ctx' addr denom = k.balance ctx addr denom
  burn_ok : ∀ ctx amt ctx',
    k.bankKeeper.BurnCoins ctx k.FeeBurner amt = (none, ctx') →
    ∀ addr denom, k.balance ctx' addr denom =
      k.balance ctx addr denom - (if addr = k.FeeBurnerAccount then AmountOf amt denom else 0)
  burn_fail : ∀ ctx amt err ctx',
    k.bankKeeper.BurnCoins ctx k.FeeBurner amt = (some err, ctx') →
    ∀ addr denom, k.balance ctx' addr denom = k.balance ctx addr denom

/-! ## Fee refund settler and block fee burner -/

/-- Function `RefundExcessGas` of `gas.go`.  `remaining` is the exact product of the
`uint64` `leftoverGas` and the gas price; the `switch` on its sign is the chain of
conditionals.  The result is `none` when one of the SDK constructors panics. -/
def RefundExcessGas {σ : Type} (k : Keeper σ) (ctx : σ) (msg : Message) (leftoverGas : Nat)
    (denom : String) : Option (Option Error × σ) :=
  let remaining : Int := (leftoverGas : Int) * msg.GasPrice
  let gasAccountBalance := k.bankKeeper.GetBalance ctx k.FeeBurnerAccount denom
  if remaining < 0 then
    some (some (Error.Wrap Error.ErrInvalidRefund
      "refunded amount value cannot be negative %d"), ctx)
  else if 0 < remaining then
    match NewIntFromBigInt remaining with
    | none => none
    | some amount =>
      match NewCoin denom amount with
      | none => none
      | some refundCoin =>
        match gasAccountBalance.IsLT refundCoin with
        | none => none
        | some true =>
          some (some (Error.Wrap Error.ErrInsufficientFunds
            "fee burner account has insufficient funds (%s) to refund %s"), ctx)
        | some false =>
          match NewCoins refundCoin with
          | none => none
          | some coins =>
            match k.bankKeeper.SendCoinsFromModuleToAccount ctx k.FeeBurner msg.From coins with
            | (some err, ctx') =>
              some (some (Error.Wrap err "failed to refund %d leftover gas (%s)"), ctx')
            | (none, ctx') => some (none, ctx')
  else some (none, ctx)

/-- Function `BurnConsumedGas` of `gas.go`: burns the balance that the fee burner account
holds in the denomination of the parameters. -/
def BurnConsumedGas {σ : Type} (k : Keeper σ) (ctx : σ) : Option (Option Error × σ) :=
  let denom := (k.GetParams ctx).EvmDenom
  let gasAccountBalance := k.bankKeeper.GetBalance ctx k.FeeBurnerAccount denom
  match NewCoins gasAccountBalance with
  | none => none
  | some coins =>
    match k.bankKeeper.BurnCoins ctx k.FeeBurner coins with
    | (some err, ctx') =>
      some (some (Error.Wrap err "failed to burn FeeBurner account balance"), ctx')
    | (none, ctx') => some (none, ctx')

/-! ## Gas meter adapter -/

/-- The ways a gas meter panics. -/
inductive GasPanic where
  | ErrorOutOfGas
  | ErrorGasOverflow
  | ErrorNegativeGasConsumed
deriving DecidableEq, Repr

/-- Modelled from the spec: the Gas Meter collaborator, a counter `(limit, consumed)`
of `uint64` values with `consumed`, `refund` and `consume`; its implementation (the
basic gas meter of the SDK) is not among the source files. -/
structure GasMeter where
  limit : Nat
  consumed : Nat
deriving DecidableEq, Repr

/-- Modelled from the spec: `consumed()` of the Gas Meter collaborator. -/
def GasMeter.GasConsumed (g : GasMeter) : Nat := g.consumed

/-- Modelled from the spec: `refund` of the Gas Meter collaborator; it deducts
`amount` from the consumed gas and panics, changing nothing, when `amount` exceeds
it. -/
def GasMeter.RefundGas (g : GasMeter) (amount : Nat) (_descriptor : String) :
    Option GasPanic × GasMeter :=
  if g.consumed < amount then (some GasPanic.ErrorNegativeGasConsumed, g)
  else (none, { g with consumed := g.consumed - amount })

/-- Modelled from the spec: `consume` of the Gas Meter collaborator; it adds
`amount` to the consumed gas, saturating with a panic on `uint64` overflow, and fails
if the sum exceeds the limit: the charge is recorded and then rejected with the out
of gas panic, as the basic gas meter of the SDK does. -/
def GasMeter.ConsumeGas (g : GasMeter) (amount : Nat) (_descriptor : String) :
    Option GasPanic × GasMeter :=
  if g.consumed + amount ≥ 2 ^ 64 then
    (some GasPanic.ErrorGasOverflow, { g with consumed := 2 ^ 64 - 1 })
  else if g.consumed + amount > g.limit then
    (some GasPanic.ErrorOutOfGas, { g with consumed := g.consumed + amount })
  else (none, { g with consumed := g.consumed + amount })

/-- Function `ResetGasMeterAndConsumeGas` of `gas.go`, on the gas meter of the context:
refunds what is consumed, then consumes `gasUsed`.  A panic of the first call
skips the second. -/
def ResetGasMeterAndConsumeGas (meter : GasMeter) (gasUsed : Nat) :
    Option GasPanic × GasMeter :=
  match meter.RefundGas meter.GasConsumed "reset the gas count" with
  | (some p, meter') => (some p, meter')
  | (none, meter') => meter'.ConsumeGas gasUsed "apply evm transaction"

/-! ## A reference ledger -/

/-- Modelled from the spec: a Ledger collaborator with signed balances per account
and denomination and a set of recipients it refuses, used to run the keeper on
concrete states. -/
structure Ledger where
  balances : Address → String → Int
  blocked : Address → Bool

/-- The ledger after `addr` is debited the coins one by one; `none` when a coin
exceeds what the account holds at that point. -/
def Ledger.subCoins (l : Ledger) (addr : Address) : List Coin → Option Ledger
  | [] => some l
  | c :: cs =>
    if l.balances addr c.Denom < c.Amount then none
    else
      Ledger.subCoins
        { l with balances := fun a d =>
            if a = addr ∧ d = c.Denom then l.balances a d - c.Amount else l.balances a d }
        addr cs

/-- The ledger after `addr` is credited the coins one by one. -/
def Ledger.addCoins (l : Ledger) (addr : Address) : List Coin → Ledger
  | [] => l
  | c :: cs =>
    Ledger.addCoins
      { l with balances := fun a d =>
          if a = addr ∧ d = c.Denom then l.balances a d + c.Amount else l.balances a d }
      addr cs

/-- The reference ledger as a bank keeper; `moduleAddress` resolves a module name
to the address of its account. -/
def Ledger.bankKeeper (moduleAddress : String → Address) : BankKeeper Ledger where
  GetBalance := fun l addr denom => ⟨denom, l.balances addr denom⟩
  SendCoinsFromModuleToAccount := fun l senderModule recipientAddr amt =>
    if l.blocked recipientAddr then (some Error.ErrUnauthorized, l)
    else
      match l.subCoins (moduleAddress senderModule) amt with
      | none => (some Error.ErrInsufficientFunds, l)
      | some l' => (none, l'.addCoins recipientAddr amt)
  BurnCoins := fun l moduleName amt =>
    match l.subCoins (moduleAddress moduleName) amt with
    | none => (some Error.ErrInsufficientFunds, l)
    | some l' => (none, l')

/-- A keeper over the reference ledger: fee denomination `evmDenom`, fee burner
module `"fee_burner"` with its account at address `escrow`. -/
def Ledger.keeper (escrow : Address) (evmDenom : String) : Keeper Ledger where
  bankKeeper := Ledger.bankKeeper (fun _ => escrow)
  GetParams := fun _ => ⟨evmDenom⟩
  FeeBurner := "fee_burner"
  FeeBurnerAccount := escrow

/-- A reference ledger in which the account `escrow` holds `amount` of `denom`,
no other balance exists and no recipient is refused. -/
def Ledger.funded (escrow : Address) (denom : String) (amount : Int) : Ledger where
  balances := fun a d => if a = escrow ∧ d = denom then amount else 0
  blocked := fun _ => false

/-- The reference ledger `l` that in addition refuses `recipient`. -/
def Ledger.refusing (l : Ledger) (recipient : Address) : Ledger where
  balances := l.balances
  blocked := fun a => if a = recipient then true else l.blocked a

/-- Modelled from the spec: a Ledger collaborator that disallows a zero-balance
burn and returns an error for it; in everything else it is the reference ledger. -/
def Ledger.strictKeeper (escrow : Address) (evmDenom : String) : Keeper Ledger where
  bankKeeper :=
    { GetBalance := (Ledger.bankKeeper (fun _ => escrow)).GetBalance
      SendCoinsFromModuleToAccount :=
        (Ledger.bankKeeper (fun _ => escrow)).SendCoinsFromModuleToAccount
      BurnCoins := fun l moduleName amt =>
        if amt.isEmpty then (some Error.ErrUnauthorized, l)
        else (Ledger.bankKeeper (fun _ => escrow)).BurnCoins l moduleName amt }
  GetParams := fun _ => ⟨evmDenom⟩
  FeeBurner := "fee_burner"
  FeeBurnerAccount := escrow

/-- The keeper `k` over contexts that carry the gas meter of the transaction next to
the state `k` works on.  The bank keeper acts on the state and makes no call on the
meter. -/
def Keeper.withGasMeter {σ : Type} (k : Keeper σ) : Keeper (σ × GasMeter) where
  bankKeeper :=
    { GetBalance := fun c addr denom => k.bankKeeper.GetBalance c.1 addr denom
      SendCoinsFromModuleToAccount := fun c senderModule recipientAddr amt =>
        ((k.bankKeeper.SendCoinsFromModuleToAccount c.1 senderModule recipientAddr amt).1,
         ((k.bankKeeper.SendCoinsFromModuleToAccount c.1 senderModule recipientAddr amt).2,
          c.2))
      BurnCoins := fun c moduleName amt =>
        ((k.bankKeeper.BurnCoins c.1 moduleName amt).1,
         ((k.bankKeeper.BurnCoins c.1 moduleName amt).2, c.2)) }
  GetParams := fun c => k.GetParams c.1
  FeeBurner := k.FeeBurner
  FeeBurnerAccount := k.FeeBurnerAccount

/-! ## Intrinsic gas calculator -/

/-- Chain configuration (`params.ChainConfig`): the two fork blocks read by
`GetEthIntrinsicGas`; `none` is the nil block of a fork that is not scheduled. -/
structure ChainConfig where
  HomesteadBlock : Option Int
  IstanbulBlock : Option Int
deriving DecidableEq, Repr

/-- Library function `isForked` of the chain configuration: the fork at block `s` is
active at block `head`. -/
def isForked (s : Option Int) (head : Int) : Bool :=
  match s with
  | none => false
  | some b => decide (b ≤ head)

/-- Library method `ChainConfig.IsHomestead`. -/
def ChainConfig.IsHomestead (c : ChainConfig) (num : Int) : Bool := isForked c.HomesteadBlock num

/-- Library method `ChainConfig.IsIstanbul`. -/
def ChainConfig.IsIstanbul (c : ChainConfig) (num : Int) : Bool := isForked c.IstanbulBlock num

/-- Function `GetEthIntrinsicGas` of `gas.go`.  `blockHeight` is `ctx.BlockHeight()`;
`intrinsicGas` is the cost computation `core.IntrinsicGas` of the EVM library, a
parameter here: it returns a gas value and an error (`none` for `nil`). -/
def GetEthIntrinsicGas {ε : Type}
    (intrinsicGas : List Nat → List (Address × List Nat) → Bool → Bool → Bool → Nat × Option ε)
    (blockHeight : Int) (msg : Message) (cfg : ChainConfig) (isContractCreation : Bool) :
    Nat × Option ε :=
  let height := blockHeight
  let homestead := cfg.IsHomestead height
  let istanbul := cfg.IsIstanbul height
  intrinsicGas msg.Data msg.AccessList isContractCreation homestead istanbul

/-- Errors of the cost computation of the EVM library. -/
inductive CoreError where
  | ErrGasUintOverflow
deriving DecidableEq, Repr

/-- The gas the access list adds in `core.IntrinsicGas`: `2400` per address and
`1900` per storage key, added to `gas` in `uint64` arithmetic. -/
def accessListGas (gas : Nat) (accessList : List (Address × List Nat)) : Nat :=
  ((gas + accessList.length * 2400 % 2 ^ 64) % 2 ^ 64
    + (accessList.map (fun t => t.2.length)).sum * 1900 % 2 ^ 64) % 2 ^ 64

/-- Library function `core.IntrinsicGas` of the EVM library, the standard cost table:
`21000` (`53000` for a contract creation from homestead on), `4` per zero byte and
`68` (`16` from istanbul on) per non-zero byte of the payload, with the overflow
checks on the `uint64` sums, then the access list. -/
def IntrinsicGas (data : List Nat) (accessList : List (Address × List Nat))
    (isContractCreation isHomestead isEIP2028 : Bool) : Nat × Option CoreError :=
  let gas := if isContractCreation && isHomestead then 53000 else 21000
  if data.length > 0 then
    let nz := (data.filter (fun byt => byt ≠ 0)).length
    let nonZeroGas := if isEIP2028 then 16 else 68
    if (2 ^ 64 - 1 - gas) / nonZeroGas < nz then (0, some CoreError.ErrGasUintOverflow)
    else
      let gas1 := gas + nz * nonZeroGas
      let z := data.length - nz
      if (2 ^ 64 - 1 - gas1) / 4 < z then (0, some CoreError.ErrGasUintOverflow)
      else (accessListGas (gas1 + z * 4) accessList, none)
  else (accessListGas gas accessList, none)

/-! ## Theorems -/

/-! ### Facts about the SDK values and the reference ledger -/

theorem NewIntFromBigInt_of_isSdkInt (i : Int) (h : IsSdkInt i) : NewIntFromBigInt i = some i := by
  unfold IsSdkInt at h
  simp [NewIntFromBigInt, h]

theorem NewIntFromBigInt_of_not_isSdkInt (i : Int) (h : ¬ IsSdkInt i) :
    NewIntFromBigInt i = none := by
  unfold IsSdkInt at h
  simp [NewIntFromBigInt, h]

theorem NewCoins_of_pos (denom : String) (amount : Int) (h : 0 < amount) :
    NewCoins ⟨denom, amount⟩ = some [⟨denom, amount⟩] := by
  have h1 : amount ≠ 0 := ne_of_gt h
  have h2 : ¬ amount < 0 := not_lt.mpr (le_of_lt h)
  simp [NewCoins, h1, h2]

theorem AmountOf_nil (denom : String) : AmountOf [] denom = 0 := by
  simp [AmountOf]

theorem AmountOf_cons (c : Coin) (cs : List Coin) (denom : String) :
    AmountOf (c :: cs) denom = (if c.Denom = denom then c.Amount else 0) + AmountOf cs denom := by
  unfold AmountOf
  by_cases h : c.Denom = denom <;> simp [List.filter_cons, h]

theorem AmountOf_singleton (denom : String) (amount : Int) (d : String) :
    AmountOf [⟨denom, amount⟩] d = if denom = d then amount else 0 := by
  simp [AmountOf_cons, AmountOf_nil]

/-- What `NewCoins` builds from a coin holds the amount of the coin in its
denomination and nothing in any other. -/
theorem AmountOf_NewCoins (coin : Coin) (coins : List Coin) (h : NewCoins coin = some coins)
    (d : String) : AmountOf coins d = if coin.Denom = d then coin.Amount else 0 := by
  unfold NewCoins at h
  by_cases h0 : coin.Amount = 0
  · simp [h0] at h
    subst h
    simp [AmountOf_nil, h0]
  · by_cases hneg : coin.Amount < 0
    · simp [h0, hneg] at h
    · simp [h0, hneg] at h
      subst h
      simp [AmountOf_cons, AmountOf_nil]

theorem NewCoins_nonneg (coin : Coin) (coins : List Coin) (h : NewCoins coin = some coins) :
    0 ≤ coin.Amount := by
  unfold NewCoins at h
  by_cases h0 : coin.Amount = 0
  · omega
  · by_cases hneg : coin.Amount < 0
    · simp [h0, hneg] at h
    · omega

theorem Ledger.subCoins_balances (addr : Address) (amt : List Coin) :
    ∀ (l l' : Ledger), l.subCoins addr amt = some l' →
      l'.blocked = l.blocked ∧
      ∀ a d, l'.balances a d = l.balances a d - (if a = addr then AmountOf amt d else 0) := by
  induction amt with
  | nil =>
    intro l l' h
    simp [Ledger.subCoins] at h
    subst h
    simp [AmountOf_nil]
  | cons c cs ih =>
    intro l l' h
    unfold Ledger.subCoins at h
    by_cases hlt : l.balances addr c.Denom < c.Amount
    · simp [hlt] at h
    · simp only [hlt, if_false] at h
      obtain ⟨hb, hbal⟩ := ih _ _ h
      refine ⟨hb, ?_⟩
      intro a d
      rw [hbal a d, AmountOf_cons]
      dsimp only
      by_cases ha : a = addr
      · by_cases hd : d = c.Denom
        · have hd' : c.Denom = d := hd.symm
          simp only [ha, hd, and_self, if_true]
          omega
        · have hd' : ¬ c.Denom = d := fun e => hd e.symm
          simp only [ha, hd, hd', and_false, if_false, if_true]
          omega
      · simp only [ha, false_and, if_false]

theorem Ledger.addCoins_balances (addr : Address) (amt : List Coin) :
    ∀ (l : Ledger),
      (l.addCoins addr amt).blocked = l.blocked ∧
      ∀ a d, (l.addCoins addr amt).balances a d
        = l.balances a d + (if a = addr then AmountOf amt d else 0) := by
  induction amt with
  | nil =>
    intro l
    simp [Ledger.addCoins, AmountOf_nil]
  | cons c cs ih =>
    intro l
    unfold Ledger.addCoins
    obtain ⟨hb, hbal⟩ := ih
      { l with balances := fun a d =>
          if a = addr ∧ d = c.Denom then l.balances a d + c.Amount else l.balances a d }
    refine ⟨hb, ?_⟩
    intro a d
    rw [hbal a d, AmountOf_cons]
    dsimp only
    by_cases ha : a = addr
    · by_cases hd : d = c.Denom
      · have hd' : c.Denom = d := hd.symm
        simp only [ha, hd, and_self, if_true]
        omega
      · have hd' : ¬ c.Denom = d := fun e => hd e.symm
        simp only [ha, hd, hd', and_false, if_false, if_true]
        omega
    · simp only [ha, false_and, if_false, add_zero]

/-- The reference ledger honours the contract of the Ledger collaborator. -/
theorem Ledger.keeper_lawful (escrow : Address) (evmDenom : String) :
    (Ledger.keeper escrow evmDenom).Lawful := by
  refine ⟨?_, ?_, ?_, ?_, ?_⟩
  · intro ctx addr denom
    rfl
  · intro ctx recipient amt ctx' h
    simp only [Ledger.keeper, Ledger.bankKeeper] at h
    by_cases hbl : ctx.blocked recipient = true
    · simp [hbl] at h
    · simp only [hbl] at h
      cases hsub : ctx.subCoins escrow amt with
      | none => simp [hsub] at h
      | some l' =>
        simp [hsub] at h
        subst h
        intro addr denom
        have h1 := (Ledger.subCoins_balances escrow amt ctx l' hsub).2 addr denom
        have h2 := (Ledger.addCoins_balances recipient amt l').2 addr denom
        simp only [Keeper.balance, Ledger.keeper, Ledger.bankKeeper]
        rw [h2, h1]
  · intro ctx recipient amt err ctx' h
    simp only [Ledger.keeper, Ledger.bankKeeper] at h
    by_cases hbl : ctx.blocked recipient = true
    · simp [hbl] at h
      rw [← h.2]
      intro addr denom
      trivial
    · simp only [hbl] at h
      cases hsub : ctx.subCoins escrow amt with
      | none =>
        simp [hsub] at h
        rw [← h.2]
        intro addr denom
        trivial
      | some l' => simp [hsub] at h
  · intro ctx amt ctx' h
    simp only [Ledger.keeper, Ledger.bankKeeper] at h
    cases hsub : ctx.subCoins escrow amt with
    | none => simp [hsub] at h
    | some l' =>
      simp [hsub] at h
      subst h
      intro addr denom
      exact (Ledger.subCoins_balances escrow amt ctx l' hsub).2 addr denom
  · intro ctx amt err ctx' h
    simp only [Ledger.keeper, Ledger.bankKeeper] at h
    cases hsub : ctx.subCoins escrow amt with
    | none =>
      simp [hsub] at h
      rw [← h.2]
      intro addr denom
      trivial
    | some l' => simp [hsub] at h

/-! ### The paths of `RefundExcessGas` -/

theorem NewCoin_of_valid (denom : String) (amount : Int) (hdenom : ValidateDenom denom = true)
    (h : 0 ≤ amount) : NewCoin denom amount = some ⟨denom, amount⟩ := by
  have h2 : ¬ amount < 0 := not_lt.mpr h
  simp [NewCoin, hdenom, h2]

theorem NewCoin_of_invalid (denom : String) (amount : Int)
    (hdenom : ValidateDenom denom = false) : NewCoin denom amount = none := by
  simp [NewCoin, hdenom]

theorem RefundExcessGas_of_neg {σ : Type} (k : Keeper σ) (ctx : σ) (msg : Message)
    (leftoverGas : Nat) (denom : String) (hneg : (leftoverGas : Int) * msg.GasPrice < 0) :
    RefundExcessGas k ctx msg leftoverGas denom
      = some (some (Error.Wrap Error.ErrInvalidRefund
          "refunded amount value cannot be negative %d"), ctx) := by
  unfold RefundExcessGas
  simp only [hneg, if_true]

theorem RefundExcessGas_of_zero {σ : Type} (k : Keeper σ) (ctx : σ) (msg : Message)
    (leftoverGas : Nat) (denom : String) (hzero : (leftoverGas : Int) * msg.GasPrice = 0) :
    RefundExcessGas k ctx msg leftoverGas denom = some (none, ctx) := by
  unfold RefundExcessGas
  simp [hzero]

theorem RefundExcessGas_of_wide {σ : Type} (k : Keeper σ) (ctx : σ) (msg : Message)
    (leftoverGas : Nat) (denom : String) (hpos : 0 < (leftoverGas : Int) * msg.GasPrice)
    (hwide : ¬ IsSdkInt ((leftoverGas : Int) * msg.GasPrice)) :
    RefundExcessGas k ctx msg leftoverGas denom = none := by
  have hnlt : ¬ (leftoverGas : Int) * msg.GasPrice < 0 := not_lt.mpr (le_of_lt hpos)
  unfold RefundExcessGas
  simp only [hnlt, hpos, if_true, if_false, NewIntFromBigInt_of_not_isSdkInt _ hwide]

theorem RefundExcessGas_of_invalid_denom {σ : Type} (k : Keeper σ) (ctx : σ) (msg : Message)
    (leftoverGas : Nat) (denom : String) (hpos : 0 < (leftoverGas : Int) * msg.GasPrice)
    (hdenom : ValidateDenom denom = false) :
    RefundExcessGas k ctx msg leftoverGas denom = none := by
  have hnlt : ¬ (leftoverGas : Int) * msg.GasPrice < 0 := not_lt.mpr (le_of_lt hpos)
  by_cases hfit : IsSdkInt ((leftoverGas : Int) * msg.GasPrice)
  · unfold RefundExcessGas
    simp only [hnlt, hpos, if_true, if_false, NewIntFromBigInt_of_isSdkInt _ hfit,
      NewCoin_of_invalid denom _ hdenom]
  · exact RefundExcessGas_of_wide k ctx msg leftoverGas denom hpos hfit

theorem RefundExcessGas_of_short {σ : Type} (k : Keeper σ) (ctx : σ) (msg : Message)
    (leftoverGas : Nat) (denom : String)
    (hden : (k.bankKeeper.GetBalance ctx k.FeeBurnerAccount denom).Denom = denom)
    (hpos : 0 < (leftoverGas : Int) * msg.GasPrice)
    (hfit : IsSdkInt ((leftoverGas : Int) * msg.GasPrice))
    (hdenom : ValidateDenom denom = true)
    (hlt : k.balance ctx k.FeeBurnerAccount denom < (leftoverGas : Int) * msg.GasPrice) :
    RefundExcessGas k ctx msg leftoverGas denom
      = some (some (Error.Wrap Error.ErrInsufficientFunds
          "fee burner account has insufficient funds (%s) to refund %s"), ctx) := by
  have hnlt : ¬ (leftoverGas : Int) * msg.GasPrice < 0 := not_lt.mpr (le_of_lt hpos)
  have hlt' : (k.bankKeeper.GetBalance ctx k.FeeBurnerAccount denom).Amount
      < (leftoverGas : Int) * msg.GasPrice := hlt
  unfold RefundExcessGas
  simp only [hnlt, hpos, if_true, if_false, NewIntFromBigInt_of_isSdkInt _ hfit,
    NewCoin_of_valid denom _ hdenom (le_of_lt hpos),
    Coin.IsLT, hden, ne_eq, not_true_eq_false, hlt', decide_True]

theorem RefundExcessGas_of_covered {σ : Type} (k : Keeper σ) (ctx : σ) (msg : Message)
    (leftoverGas : Nat) (denom : String)
    (hden : (k.bankKeeper.GetBalance ctx k.FeeBurnerAccount denom).Denom = denom)
    (hpos : 0 < (leftoverGas : Int) * msg.GasPrice)
    (hfit : IsSdkInt ((leftoverGas : Int) * msg.GasPrice))
    (hdenom : ValidateDenom denom = true)
    (hge : (leftoverGas : Int) * msg.GasPrice ≤ k.balance ctx k.FeeBurnerAccount denom) :
    RefundExcessGas k ctx msg leftoverGas denom
      = some (((k.bankKeeper.SendCoinsFromModuleToAccount ctx k.FeeBurner msg.From
            [⟨denom, (leftoverGas : Int) * msg.GasPrice⟩]).1.map
              (fun err => Error.Wrap err "failed to refund %d leftover gas (%s)")),
          (k.bankKeeper.SendCoinsFromModuleToAccount ctx k.FeeBurner msg.From
            [⟨denom, (leftoverGas : Int) * msg.GasPrice⟩]).2) := by
  have hnlt : ¬ (leftoverGas : Int) * msg.GasPrice < 0 := not_lt.mpr (le_of_lt hpos)
  have hnb : ¬ (k.bankKeeper.GetBalance ctx k.FeeBurnerAccount denom).Amount
      < (leftoverGas : Int) * msg.GasPrice := not_lt.mpr hge
  unfold RefundExcessGas
  simp only [hnlt, hpos, if_true, if_false, NewIntFromBigInt_of_isSdkInt _ hfit,
    NewCoin_of_valid denom _ hdenom (le_of_lt hpos),
    Coin.IsLT, hden, ne_eq, not_true_eq_false, hnb, decide_False,
    NewCoins_of_pos denom _ hpos]
  cases hs : k.bankKeeper.SendCoinsFromModuleToAccount ctx k.FeeBurner msg.From
      [⟨denom, (leftoverGas : Int) * msg.GasPrice⟩] with
  | mk e s' =>
    cases e with
    | some e => rfl
    | none => rfl

/-- On a lawful ledger a call of `RefundExcessGas` that returns has either left every
balance as it was, or it has moved the refund amount, which the escrow balance
covered, from the fee burner account to the sender. -/
theorem RefundExcessGas_balances {σ : Type} (k : Keeper σ) (hk : k.Lawful) (ctx : σ)
    (msg : Message) (leftoverGas : Nat) (denom : String) (err : Option Error) (ctx' : σ)
    (h : RefundExcessGas k ctx msg leftoverGas denom = some (err, ctx')) :
    (∀ addr d, k.balance ctx' addr d = k.balance ctx addr d) ∨
    (0 < (leftoverGas : Int) * msg.GasPrice ∧
      (leftoverGas : Int) * msg.GasPrice ≤ k.balance ctx k.FeeBurnerAccount denom ∧
      ∀ addr d, k.balance ctx' addr d =
        k.balance ctx addr d
          - (if addr = k.FeeBurnerAccount then
              (if denom = d then (leftoverGas : Int) * msg.GasPrice else 0) else 0)
          + (if addr = msg.From then
              (if denom = d then (leftoverGas : Int) * msg.GasPrice else 0) else 0)) := by
  have hden := hk.getBalance_denom ctx k.FeeBurnerAccount denom
  by_cases hneg : (leftoverGas : Int) * msg.GasPrice < 0
  · rw [RefundExcessGas_of_neg k ctx msg leftoverGas denom hneg] at h
    cases h
    exact Or.inl (fun _ _ => rfl)
  · by_cases hpos : 0 < (leftoverGas : Int) * msg.GasPrice
    · by_cases hdenom : ValidateDenom denom = true
      · by_cases hfit : IsSdkInt ((leftoverGas : Int) * msg.GasPrice)
        · by_cases hlt : k.balance ctx k.FeeBurnerAccount denom
              < (leftoverGas : Int) * msg.GasPrice
          · rw [RefundExcessGas_of_short k ctx msg leftoverGas denom hden hpos hfit hdenom
              hlt] at h
            cases h
            exact Or.inl (fun _ _ => rfl)
          · have hge := not_lt.mp hlt
            rw [RefundExcessGas_of_covered k ctx msg leftoverGas denom hden hpos hfit hdenom
              hge] at h
            cases hs : k.bankKeeper.SendCoinsFromModuleToAccount ctx k.FeeBurner msg.From
                [⟨denom, (leftoverGas : Int) * msg.GasPrice⟩] with
            | mk e s' =>
              rw [hs] at h
              cases e with
              | some e =>
                simp at h
                obtain ⟨_, h2⟩ := h
                subst h2
                exact Or.inl (hk.send_fail ctx msg.From _ e s' hs)
              | none =>
                simp at h
                obtain ⟨_, h2⟩ := h
                subst h2
                refine Or.inr ⟨hpos, hge, ?_⟩
                intro addr d
                rw [hk.send_ok ctx msg.From _ s' hs addr d, AmountOf_singleton]
        · rw [RefundExcessGas_of_wide k ctx msg leftoverGas denom hpos hfit] at h
          cases h
      · have hbad : ValidateDenom denom = false := by
          cases hv : ValidateDenom denom with
          | true => exact absurd hv hdenom
          | false => rfl
        rw [RefundExcessGas_of_invalid_denom k ctx msg leftoverGas denom hpos hbad] at h
        cases h
    · have hzero : (leftoverGas : Int) * msg.GasPrice = 0 := by omega
      rw [RefundExcessGas_of_zero k ctx msg leftoverGas denom hzero] at h
      cases h
      exact Or.inl (fun _ _ => rfl)

/-- C1: for every `refundQuotient > 0`, `GasToRefund` returns
`min availableRefund (gasConsumed / refundQuotient)` (truncating division), which is
at most `availableRefund`. -/
theorem GasToRefund_eq_min (availableRefund gasConsumed refundQuotient : Nat)
    (hq : 0 < refundQuotient) :
    GasToRefund availableRefund gasConsumed refundQuotient
        = some (min availableRefund (gasConsumed / refundQuotient))
      ∧ (∀ r, GasToRefund availableRefund gasConsumed refundQuotient = some r →
          r ≤ availableRefund) := by
  have hne : refundQuotient ≠ 0 := Nat.pos_iff_ne_zero.mp hq
  have heq : GasToRefund availableRefund gasConsumed refundQuotient
      = some (min availableRefund (gasConsumed / refundQuotient)) := by
    unfold GasToRefund
    by_cases h : gasConsumed / refundQuotient > availableRefund
    · simp [hne, h, Nat.min_eq_left (Nat.le_of_lt h)]
    · simp [hne, h, Nat.min_eq_right (Nat.le_of_not_lt h)]
  refine ⟨heq, ?_⟩
  intro r hr
  rw [heq] at hr
  cases hr
  exact Nat.min_le_left _ _

/-- Scenario D: `GasToRefund 10 100 5 = 10` (capped) and `GasToRefund 100 100 5 = 20`. -/
theorem GasToRefund_eq_min_witness :
    GasToRefund 10 100 5 = some 10 ∧ GasToRefund 100 100 5 = some 20 :=
  ⟨(GasToRefund_eq_min 10 100 5 (by decide)).1, (GasToRefund_eq_min 100 100 5 (by decide)).1⟩

/-- C2 as stated fails when the sender is the fee burner account itself: with escrow
balance `50000`, leftover gas `21000` and gas price `1` the transfer succeeds and the
call returns no error, yet the escrow balance is still `50000`, not `29000`.  It also
fails on a denomination the SDK rejects: for the denomination `""`, with the same
amounts and a sender `7`, the call panics in `sdk.NewCoin` and returns nothing. -/
theorem RefundExcessGas_refund_to_escrow_keeps_balance :
    ((0 : Int) < ((21000 : Nat) : Int) * 1 ∧
      ((21000 : Nat) : Int) * 1
        ≤ (Ledger.keeper 1 "atest").balance (Ledger.funded 1 "atest" 50000) 1 "atest" ∧
      ((Ledger.keeper 1 "atest").bankKeeper.SendCoinsFromModuleToAccount
        (Ledger.funded 1 "atest" 50000) "fee_burner" 1 [⟨"atest", 21000⟩]).1 = none ∧
      (RefundExcessGas (Ledger.keeper 1 "atest") (Ledger.funded 1 "atest" 50000)
          ⟨1, 1, [], []⟩ 21000 "atest").map
        (fun r => (r.1, (Ledger.keeper 1 "atest").balance r.2 1 "atest"))
        = some (none, 50000) ∧
      (50000 : Int) ≠ 50000 - 21000) ∧
    (ValidateDenom "" = false ∧
      ((21000 : Nat) : Int) * 1
        ≤ (Ledger.keeper 1 "").balance (Ledger.funded 1 "" 50000) 1 "" ∧
      ((Ledger.keeper 1 "").bankKeeper.SendCoinsFromModuleToAccount
        (Ledger.funded 1 "" 50000) "fee_burner" 7 [⟨"", 21000⟩]).1 = none ∧
      (RefundExcessGas (Ledger.keeper 1 "") (Ledger.funded 1 "" 50000)
          ⟨7, 1, [], []⟩ 21000 "").isNone = true) := by
  refine ⟨⟨by decide, by decide, by decide, by decide, by decide⟩,
    ⟨by decide, by decide, by decide, by decide⟩⟩

/-- C2 (amended): when `denom` is a denomination the SDK accepts,
`r = leftoverGas * gasPrice > 0`, the escrow balance `b` (an `sdk.Int`) is at least `r`
and the transfer of the ledger succeeds, `RefundExcessGas` returns no error and leaves
the ledger the transfer produced; if the sender is not the fee burner account, the
escrow balance becomes `b - r` and the sender's balance grows by exactly `r`; if the
sender is the fee burner account, the escrow balance stays `b`. -/
theorem RefundExcessGas_refund {σ : Type} (k : Keeper σ) (hk : k.Lawful) (ctx : σ)
    (msg : Message) (leftoverGas : Nat) (denom : String)
    (hdenom : ValidateDenom denom = true)
    (hpos : 0 < (leftoverGas : Int) * msg.GasPrice)
    (hb : (leftoverGas : Int) * msg.GasPrice ≤ k.balance ctx k.FeeBurnerAccount denom)
    (hty : IsSdkInt (k.balance ctx k.FeeBurnerAccount denom))
    (hsend : (k.bankKeeper.SendCoinsFromModuleToAccount ctx k.FeeBurner msg.From
      [⟨denom, (leftoverGas : Int) * msg.GasPrice⟩]).1 = none) :
    RefundExcessGas k ctx msg leftoverGas denom
        = some (none, (k.bankKeeper.SendCoinsFromModuleToAccount ctx k.FeeBurner msg.From
            [⟨denom, (leftoverGas : Int) * msg.GasPrice⟩]).2) ∧
      (msg.From ≠ k.FeeBurnerAccount →
        k.balance (k.bankKeeper.SendCoinsFromModuleToAccount ctx k.FeeBurner msg.From
            [⟨denom, (leftoverGas : Int) * msg.GasPrice⟩]).2 k.FeeBurnerAccount denom
          = k.balance ctx k.FeeBurnerAccount denom - (leftoverGas : Int) * msg.GasPrice ∧
        k.balance (k.bankKeeper.SendCoinsFromModuleToAccount ctx k.FeeBurner msg.From
            [⟨denom, (leftoverGas : Int) * msg.GasPrice⟩]).2 msg.From denom
          = k.balance ctx msg.From denom + (leftoverGas : Int) * msg.GasPrice) ∧
      (msg.From = k.FeeBurnerAccount →
        k.balance (k.bankKeeper.SendCoinsFromModuleToAccount ctx k.FeeBurner msg.From
            [⟨denom, (leftoverGas : Int) * msg.GasPrice⟩]).2 k.FeeBurnerAccount denom
          = k.balance ctx k.FeeBurnerAccount denom) := by
  have hfit : IsSdkInt ((leftoverGas : Int) * msg.GasPrice) := by
    unfold IsSdkInt at hty ⊢
    omega
  have hden := hk.getBalance_denom ctx k.FeeBurnerAccount denom
  have hpair : k.bankKeeper.SendCoinsFromModuleToAccount ctx k.FeeBurner msg.From
      [⟨denom, (leftoverGas : Int) * msg.GasPrice⟩]
      = (none, (k.bankKeeper.SendCoinsFromModuleToAccount ctx k.FeeBurner msg.From
          [⟨denom, (leftoverGas : Int) * msg.GasPrice⟩]).2) := Prod.ext hsend rfl
  have hbal := hk.send_ok ctx msg.From _ _ hpair
  refine ⟨?_, ?_, ?_⟩
  · rw [RefundExcessGas_of_covered k ctx msg leftoverGas denom hden hpos hfit hdenom hb, hsend]
    rfl
  · intro hne
    have hne' : ¬ k.FeeBurnerAccount = msg.From := fun e => hne e.symm
    constructor
    · rw [hbal k.FeeBurnerAccount denom]
      simp [AmountOf_singleton, hne']
    · rw [hbal msg.From denom]
      simp [AmountOf_singleton, hne]
  · intro heq
    rw [hbal k.FeeBurnerAccount denom]
    simp [AmountOf_singleton, heq]

/-- Scenario A: leftover gas `21000` at gas price `1` with `50000` `"atest"` in escrow
moves `21000` to the sender (address `7`) and leaves `29000` in escrow. -/
theorem RefundExcessGas_refund_witness :
    (Ledger.keeper 1 "atest").balance
        ((Ledger.keeper 1 "atest").bankKeeper.SendCoinsFromModuleToAccount
          (Ledger.funded 1 "atest" 50000) "fee_burner" 7 [⟨"atest", 21000⟩]).2 1 "atest"
      = 29000 ∧
    (Ledger.keeper 1 "atest").balance
        ((Ledger.keeper 1 "atest").bankKeeper.SendCoinsFromModuleToAccount
          (Ledger.funded 1 "atest" 50000) "fee_burner" 7 [⟨"atest", 21000⟩]).2 7 "atest"
      = 21000 ∧
    RefundExcessGas (Ledger.keeper 1 "atest") (Ledger.funded 1 "atest" 50000)
        ⟨7, 1, [], []⟩ 21000 "atest"
      = some (none, ((Ledger.keeper 1 "atest").bankKeeper.SendCoinsFromModuleToAccount
          (Ledger.funded 1 "atest" 50000) "fee_burner" 7 [⟨"atest", 21000⟩]).2) :=
  have h := RefundExcessGas_refund (Ledger.keeper 1 "atest") (Ledger.keeper_lawful 1 "atest")
    (Ledger.funded 1 "atest" 50000) ⟨7, 1, [], []⟩ 21000 "atest"
    (by decide) (by decide) (by decide) (by decide) (by decide)
  ⟨(h.2.1 (by decide)).1, (h.2.1 (by decide)).2, h.1⟩

/-- C3 as stated fails when the refund amount does not fit an `sdk.Int`: with
leftover gas `2 ^ 63`, gas price `2 ^ 255` and escrow balance `50` the amount is
positive and above the balance, yet the call panics in `sdk.NewIntFromBigInt` and
returns no error value at all.  It also fails on a denomination the SDK rejects: for
the denomination `""`, leftover gas `100`, gas price `1` and an empty escrow the call
panics in `sdk.NewCoin`. -/
theorem RefundExcessGas_wide_refund_panics :
    ((0 : Int) < Int.ofNat (2 ^ 63) * Int.ofNat (2 ^ 255) ∧
      (Ledger.keeper 1 "atest").balance (Ledger.funded 1 "atest" 50) 1 "atest"
        < Int.ofNat (2 ^ 63) * Int.ofNat (2 ^ 255) ∧
      (2 ^ 63 : Nat) < 2 ^ 64 ∧ (2 ^ 255 : Nat) < 2 ^ 256 ∧
      (RefundExcessGas (Ledger.keeper 1 "atest") (Ledger.funded 1 "atest" 50)
          ⟨7, Int.ofNat (2 ^ 255), [], []⟩ (2 ^ 63) "atest").isNone = true) ∧
    (ValidateDenom "" = false ∧ (0 : Int) < ((100 : Nat) : Int) * 1 ∧
      (Ledger.keeper 1 "").balance (Ledger.funded 1 "" 0) 1 "" < ((100 : Nat) : Int) * 1 ∧
      (RefundExcessGas (Ledger.keeper 1 "") (Ledger.funded 1 "" 0)
          ⟨7, 1, [], []⟩ 100 "").isNone = true) := by
  refine ⟨⟨by decide, by decide, by decide, by decide, by decide⟩,
    ⟨by decide, by decide, by decide, by decide⟩⟩

/-- C3 (amended): when `denom` is a denomination the SDK accepts,
`r = leftoverGas * gasPrice > 0` fits an `sdk.Int` (magnitude below `2 ^ 256`) and the
escrow balance is strictly below `r`, `RefundExcessGas` returns the wrapped
`ErrInsufficientFunds`, the bank keeper receives no state-changing call (the log of the
recording keeper is as before) and the ledger, hence every balance, is unchanged. -/
theorem RefundExcessGas_insufficient_funds {σ : Type} (k : Keeper σ) (hk : k.Lawful) (ctx : σ)
    (calls : List BankCall) (msg : Message) (leftoverGas : Nat) (denom : String)
    (hdenom : ValidateDenom denom = true)
    (hpos : 0 < (leftoverGas : Int) * msg.GasPrice)
    (hfit : IsSdkInt ((leftoverGas : Int) * msg.GasPrice))
    (hlt : k.balance ctx k.FeeBurnerAccount denom < (leftoverGas : Int) * msg.GasPrice) :
    RefundExcessGas k.recording (ctx, calls) msg leftoverGas denom
        = some (some (Error.Wrap Error.ErrInsufficientFunds
            "fee burner account has insufficient funds (%s) to refund %s"), (ctx, calls)) ∧
      RefundExcessGas k ctx msg leftoverGas denom
        = some (some (Error.Wrap Error.ErrInsufficientFunds
            "fee burner account has insufficient funds (%s) to refund %s"), ctx) := by
  have hden := hk.getBalance_denom ctx k.FeeBurnerAccount denom
  have hden' : ((k.recording).bankKeeper.GetBalance (ctx, calls)
      (k.recording).FeeBurnerAccount denom).Denom = denom := hden
  exact ⟨RefundExcessGas_of_short k.recording (ctx, calls) msg leftoverGas denom hden' hpos hfit
      hdenom hlt,
    RefundExcessGas_of_short k ctx msg leftoverGas denom hden hpos hfit hdenom hlt⟩

/-- Scenario C: leftover gas `100` at gas price `1` with `50` in escrow fails with the
insufficient funds error and changes nothing. -/
theorem RefundExcessGas_insufficient_funds_witness :
    RefundExcessGas (Ledger.keeper 1 "atest").recording (Ledger.funded 1 "atest" 50, [])
        ⟨7, 1, [], []⟩ 100 "atest"
      = some (some (Error.Wrap Error.ErrInsufficientFunds
          "fee burner account has insufficient funds (%s) to refund %s"),
          (Ledger.funded 1 "atest" 50, [])) :=
  (RefundExcessGas_insufficient_funds (Ledger.keeper 1 "atest") (Ledger.keeper_lawful 1 "atest")
    (Ledger.funded 1 "atest" 50) [] ⟨7, 1, [], []⟩ 100 "atest"
    (by decide) (by decide) (by decide) (by decide)).1

/-- C4: when `leftoverGas * gasPrice = 0`, `RefundExcessGas` returns no error, the bank
keeper receives no state-changing call and the ledger, hence every balance, is unchanged,
whatever the ledger and its escrow balance are. -/
theorem RefundExcessGas_zero_refund {σ : Type} (k : Keeper σ) (ctx : σ) (calls : List BankCall)
    (msg : Message) (leftoverGas : Nat) (denom : String)
    (hzero : (leftoverGas : Int) * msg.GasPrice = 0) :
    RefundExcessGas k.recording (ctx, calls) msg leftoverGas denom = some (none, (ctx, calls)) ∧
      RefundExcessGas k ctx msg leftoverGas denom = some (none, ctx) := by
  constructor <;> · unfold RefundExcessGas; simp [hzero]

/-- Scenario B: leftover gas `0` with an empty escrow: nothing is sent, nothing changes. -/
theorem RefundExcessGas_zero_refund_witness :
    ((0 : Nat) : Int) * 5 = 0 ∧
    RefundExcessGas (Ledger.keeper 1 "atest").recording (Ledger.funded 1 "atest" 0, [])
        ⟨7, 5, [], []⟩ 0 "atest"
      = some (none, (Ledger.funded 1 "atest" 0, [])) :=
  ⟨by decide, (RefundExcessGas_zero_refund (Ledger.keeper 1 "atest") (Ledger.funded 1 "atest" 0) []
    ⟨7, 5, [], []⟩ 0 "atest" (by decide)).1⟩

/-- C5: on a lawful ledger, whenever `RefundExcessGas` returns, with or without an
error, the sum of the escrow balance and the sender's balance in `denom` is the same
after the call as before it (so it is not less); and the call does return whenever the
refund amount is not positive, or fits an `sdk.Int` and `denom` is a denomination the
SDK accepts. -/
theorem RefundExcessGas_conserves {σ : Type} (k : Keeper σ) (hk : k.Lawful) (ctx : σ)
    (msg : Message) (leftoverGas : Nat) (denom : String) :
    (∀ err ctx', RefundExcessGas k ctx msg leftoverGas denom = some (err, ctx') →
      k.balance ctx' k.FeeBurnerAccount denom + k.balance ctx' msg.From denom
        = k.balance ctx k.FeeBurnerAccount denom + k.balance ctx msg.From denom) ∧
    ((leftoverGas : Int) * msg.GasPrice ≤ 0 ∨
        (IsSdkInt ((leftoverGas : Int) * msg.GasPrice) ∧ ValidateDenom denom = true) →
      ∃ err ctx', RefundExcessGas k ctx msg leftoverGas denom = some (err, ctx')) := by
  have hden := hk.getBalance_denom ctx k.FeeBurnerAccount denom
  constructor
  · intro err ctx' h
    rcases RefundExcessGas_balances k hk ctx msg leftoverGas denom err ctx' h with hsame | hmove
    · rw [hsame, hsame]
    · obtain ⟨_, _, hbal⟩ := hmove
      rw [hbal k.FeeBurnerAccount denom, hbal msg.From denom]
      simp only [if_true]
      by_cases hfrom : msg.From = k.FeeBurnerAccount
      · simp only [hfrom, if_true]
        omega
      · have hfrom' : ¬ k.FeeBurnerAccount = msg.From := fun e => hfrom e.symm
        simp only [hfrom, hfrom', if_false]
        omega
  · intro hret
    by_cases hneg : (leftoverGas : Int) * msg.GasPrice < 0
    · exact ⟨_, _, RefundExcessGas_of_neg k ctx msg leftoverGas denom hneg⟩
    · by_cases hpos : 0 < (leftoverGas : Int) * msg.GasPrice
      · rcases hret with hle | ⟨hfit, hdenom⟩
        · omega
        · by_cases hlt : k.balance ctx k.FeeBurnerAccount denom
              < (leftoverGas : Int) * msg.GasPrice
          · exact ⟨_, _, RefundExcessGas_of_short k ctx msg leftoverGas denom hden hpos hfit
              hdenom hlt⟩
          · exact ⟨_, _, RefundExcessGas_of_covered k ctx msg leftoverGas denom hden hpos hfit
              hdenom (not_lt.mp hlt)⟩
      · have hzero : (leftoverGas : Int) * msg.GasPrice = 0 := by omega
        exact ⟨_, _, RefundExcessGas_of_zero k ctx msg leftoverGas denom hzero⟩

/-- A successful refund of `21000` out of `50000` in escrow to sender `7` holding nothing:
the sum of the two balances is `50000` before and after. -/
theorem RefundExcessGas_conserves_witness :
    RefundExcessGas (Ledger.keeper 1 "atest") (Ledger.funded 1 "atest" 50000)
        ⟨7, 1, [], []⟩ 21000 "atest"
      = some (none, ((Ledger.keeper 1 "atest").bankKeeper.SendCoinsFromModuleToAccount
          (Ledger.funded 1 "atest" 50000) "fee_burner" 7 [⟨"atest", 21000⟩]).2) ∧
    (Ledger.keeper 1 "atest").balance
        ((Ledger.keeper 1 "atest").bankKeeper.SendCoinsFromModuleToAccount
          (Ledger.funded 1 "atest" 50000) "fee_burner" 7 [⟨"atest", 21000⟩]).2 1 "atest"
      + (Ledger.keeper 1 "atest").balance
        ((Ledger.keeper 1 "atest").bankKeeper.SendCoinsFromModuleToAccount
          (Ledger.funded 1 "atest" 50000) "fee_burner" 7 [⟨"atest", 21000⟩]).2 7 "atest"
      = 50000 + 0 :=
  ⟨rfl, (RefundExcessGas_conserves (Ledger.keeper 1 "atest") (Ledger.keeper_lawful 1 "atest")
    (Ledger.funded 1 "atest" 50000) ⟨7, 1, [], []⟩ 21000 "atest").1 none _ rfl⟩

/-- C6: when the coins built from the escrow balance in `params.EvmDenom` are accepted
by the burn of the ledger, `BurnConsumedGas` returns no error, the one call the bank
keeper receives is the burn of coins worth exactly that balance in the fee denomination
and nothing in any other, and afterwards the escrow balance in the fee denomination
is `0`. -/
theorem BurnConsumedGas_burns_whole_balance {σ : Type} (k : Keeper σ) (hk : k.Lawful) (ctx : σ)
    (calls : List BankCall) (coins : List Coin)
    (hcoins : NewCoins (k.bankKeeper.GetBalance ctx k.FeeBurnerAccount (k.GetParams ctx).EvmDenom)
      = some coins)
    (hburn : (k.bankKeeper.BurnCoins ctx k.FeeBurner coins).1 = none) :
    BurnConsumedGas k.recording (ctx, calls)
        = some (none, ((k.bankKeeper.BurnCoins ctx k.FeeBurner coins).2,
            calls ++ [BankCall.BurnCoins k.FeeBurner coins])) ∧
      BurnConsumedGas k ctx = some (none, (k.bankKeeper.BurnCoins ctx k.FeeBurner coins).2) ∧
      AmountOf coins (k.GetParams ctx).EvmDenom
        = k.balance ctx k.FeeBurnerAccount (k.GetParams ctx).EvmDenom ∧
      (∀ d, d ≠ (k.GetParams ctx).EvmDenom → AmountOf coins d = 0) ∧
      k.balance (k.bankKeeper.BurnCoins ctx k.FeeBurner coins).2 k.FeeBurnerAccount
        (k.GetParams ctx).EvmDenom = 0 := by
  have hden := hk.getBalance_denom ctx k.FeeBurnerAccount (k.GetParams ctx).EvmDenom
  have hpair : k.bankKeeper.BurnCoins ctx k.FeeBurner coins
      = (none, (k.bankKeeper.BurnCoins ctx k.FeeBurner coins).2) := Prod.ext hburn rfl
  have hamt := AmountOf_NewCoins _ coins hcoins
  rw [hden] at hamt
  have hbal := hk.burn_ok ctx coins _ hpair k.FeeBurnerAccount (k.GetParams ctx).EvmDenom
  refine ⟨?_, ?_, ?_, ?_, ?_⟩
  · unfold BurnConsumedGas
    simp only [Keeper.recording, BankKeeper.recording, hcoins, hburn]
  · unfold BurnConsumedGas
    simp only [hcoins]
    rw [hpair]
  · rw [hamt]
    simp [Keeper.balance]
  · intro d hd
    rw [hamt]
    have hd' : ¬ (k.GetParams ctx).EvmDenom = d := fun e => hd e.symm
    simp [hd']
  · rw [hbal, hamt]
    simp [Keeper.balance]

/-- Scenario E: with `123` `"atest"` in escrow the keeper issues the burn of exactly
`123` `"atest"` and the escrow balance is `0` afterwards. -/
theorem BurnConsumedGas_burns_whole_balance_witness :
    BurnConsumedGas (Ledger.keeper 1 "atest").recording (Ledger.funded 1 "atest" 123, [])
        = some (none, (((Ledger.keeper 1 "atest").bankKeeper.BurnCoins
              (Ledger.funded 1 "atest" 123) "fee_burner" [⟨"atest", 123⟩]).2,
            [BankCall.BurnCoins "fee_burner" [⟨"atest", 123⟩]])) ∧
      (Ledger.keeper 1 "atest").balance
        ((Ledger.keeper 1 "atest").bankKeeper.BurnCoins
          (Ledger.funded 1 "atest" 123) "fee_burner" [⟨"atest", 123⟩]).2 1 "atest" = 0 :=
  have h := BurnConsumedGas_burns_whole_balance (Ledger.keeper 1 "atest")
    (Ledger.keeper_lawful 1 "atest") (Ledger.funded 1 "atest" 123) [] [⟨"atest", 123⟩]
    (by decide) (by decide)
  ⟨h.1, h.2.2.2.2⟩

/-- C7 as stated fails on an empty escrow: the burn of the zero balance succeeds and the
balance is `0` before and after, so it has not strictly decreased. -/
theorem BurnConsumedGas_empty_escrow_not_decreased :
    (BurnConsumedGas (Ledger.keeper 1 "atest") (Ledger.funded 1 "atest" 0)).map
        (fun r => (r.1, (Ledger.keeper 1 "atest").balance r.2 1 "atest"))
      = some (none, 0) ∧
    (Ledger.keeper 1 "atest").balance (Ledger.funded 1 "atest" 0) 1 "atest" = 0 ∧
    ¬ ((0 : Int) < 0) := by
  refine ⟨by decide, by decide, by decide⟩

/-- C7 (amended): a successful `BurnConsumedGas` brings the escrow balance in the fee
denomination to exactly `0`; the decrease is never negative, so the balance after is at
most the balance before, and it is strictly smaller exactly when the balance before was
positive. -/
theorem BurnConsumedGas_decreases_to_zero {σ : Type} (k : Keeper σ) (hk : k.Lawful)
    (ctx ctx' : σ) (hburn : BurnConsumedGas k ctx = some (none, ctx')) :
    k.balance ctx' k.FeeBurnerAccount (k.GetParams ctx).EvmDenom = 0 ∧
      0 ≤ k.balance ctx k.FeeBurnerAccount (k.GetParams ctx).EvmDenom
          - k.balance ctx' k.FeeBurnerAccount (k.GetParams ctx).EvmDenom ∧
      k.balance ctx' k.FeeBurnerAccount (k.GetParams ctx).EvmDenom
        ≤ k.balance ctx k.FeeBurnerAccount (k.GetParams ctx).EvmDenom ∧
      (k.balance ctx' k.FeeBurnerAccount (k.GetParams ctx).EvmDenom
          < k.balance ctx k.FeeBurnerAccount (k.GetParams ctx).EvmDenom
        ↔ 0 < k.balance ctx k.FeeBurnerAccount (k.GetParams ctx).EvmDenom) := by
  have hden := hk.getBalance_denom ctx k.FeeBurnerAccount (k.GetParams ctx).EvmDenom
  unfold BurnConsumedGas at hburn
  cases hc : NewCoins (k.bankKeeper.GetBalance ctx k.FeeBurnerAccount (k.GetParams ctx).EvmDenom) with
  | none => simp [hc] at hburn
  | some coins =>
    simp only [hc] at hburn
    have hnn := NewCoins_nonneg _ coins hc
    have hamt := AmountOf_NewCoins _ coins hc (k.GetParams ctx).EvmDenom
    rw [hden] at hamt
    simp only [if_true] at hamt
    cases hb : k.bankKeeper.BurnCoins ctx k.FeeBurner coins with
    | mk e s' =>
      rw [hb] at hburn
      cases e with
      | some e => simp at hburn
      | none =>
        simp at hburn
        subst hburn
        have hbal := hk.burn_ok ctx coins _ hb k.FeeBurnerAccount (k.GetParams ctx).EvmDenom
        simp only [if_true, hamt] at hbal
        have hz : k.balance s' k.FeeBurnerAccount (k.GetParams ctx).EvmDenom = 0 := by
          rw [hbal]
          simp [Keeper.balance]
        have hnn' : 0 ≤ k.balance ctx k.FeeBurnerAccount (k.GetParams ctx).EvmDenom := hnn
        rw [hz]
        refine ⟨rfl, ?_, hnn', Iff.rfl⟩
        omega

/-- A successful burn of `123` `"atest"`: the balance goes from `123` to `0`. -/
theorem BurnConsumedGas_decreases_to_zero_witness :
    (Ledger.keeper 1 "atest").balance
        ((Ledger.keeper 1 "atest").bankKeeper.BurnCoins
          (Ledger.funded 1 "atest" 123) "fee_burner" [⟨"atest", 123⟩]).2 1 "atest" = 0 ∧
    ((Ledger.keeper 1 "atest").balance
        ((Ledger.keeper 1 "atest").bankKeeper.BurnCoins
          (Ledger.funded 1 "atest" 123) "fee_burner" [⟨"atest", 123⟩]).2 1 "atest"
      < (Ledger.keeper 1 "atest").balance (Ledger.funded 1 "atest" 123) 1 "atest"
      ↔ 0 < (Ledger.keeper 1 "atest").balance (Ledger.funded 1 "atest" 123) 1 "atest") :=
  have h := BurnConsumedGas_decreases_to_zero (Ledger.keeper 1 "atest")
    (Ledger.keeper_lawful 1 "atest") (Ledger.funded 1 "atest" 123)
    ((Ledger.keeper 1 "atest").bankKeeper.BurnCoins
      (Ledger.funded 1 "atest" 123) "fee_burner" [⟨"atest", 123⟩]).2 rfl
  ⟨h.1, h.2.2.2⟩

/-- C8: for every meter, whatever its limit and its consumed gas, and every `uint64`
`gasUsed`, the gas consumed reported after `ResetGasMeterAndConsumeGas` is exactly
`gasUsed`. -/
theorem ResetGasMeterAndConsumeGas_consumed (meter : GasMeter) (gasUsed : Nat)
    (hgas : gasUsed < 2 ^ 64) :
    (ResetGasMeterAndConsumeGas meter gasUsed).2.GasConsumed = gasUsed := by
  have h1 : ¬ meter.consumed < meter.consumed := lt_irrefl _
  have h2 : ¬ gasUsed ≥ 2 ^ 64 := not_le.mpr hgas
  unfold ResetGasMeterAndConsumeGas GasMeter.RefundGas GasMeter.GasConsumed
  simp only [h1, if_false, Nat.sub_self, GasMeter.ConsumeGas, Nat.zero_add, h2]
  by_cases hl : gasUsed > meter.limit <;> simp [hl]

/-- A meter with limit `100000` that has consumed `60000` reports `21000` after the
reset to `21000`. -/
theorem ResetGasMeterAndConsumeGas_consumed_witness :
    (21000 : Nat) < 2 ^ 64 ∧
    (ResetGasMeterAndConsumeGas ⟨100000, 60000⟩ 21000).2.GasConsumed = 21000 :=
  ⟨by decide, ResetGasMeterAndConsumeGas_consumed ⟨100000, 60000⟩ 21000 (by decide)⟩

/-- C9: for a `uint64` `gasUsed`, the internal refund of the consumed gas never fails and
leaves the meter at `0`; `ResetGasMeterAndConsumeGas` fails exactly as the final charge
of `gasUsed` on that meter does, which is exactly when `gasUsed` exceeds the limit, and
the failure is then the out of gas panic; for `gasUsed` within the limit it completes
without failure, whatever was consumed before. -/
theorem ResetGasMeterAndConsumeGas_fails_iff (meter : GasMeter) (gasUsed : Nat)
    (hgas : gasUsed < 2 ^ 64) :
    meter.RefundGas meter.GasConsumed "reset the gas count"
        = (none, ⟨meter.limit, 0⟩) ∧
      (ResetGasMeterAndConsumeGas meter gasUsed).1
        = ((⟨meter.limit, 0⟩ : GasMeter).ConsumeGas gasUsed "apply evm transaction").1 ∧
      ((ResetGasMeterAndConsumeGas meter gasUsed).1 ≠ none ↔ meter.limit < gasUsed) ∧
      ((ResetGasMeterAndConsumeGas meter gasUsed).1 ≠ none →
        (ResetGasMeterAndConsumeGas meter gasUsed).1 = some GasPanic.ErrorOutOfGas) ∧
      (gasUsed ≤ meter.limit → (ResetGasMeterAndConsumeGas meter gasUsed).1 = none) := by
  have h1 : ¬ meter.consumed < meter.consumed := lt_irrefl _
  have h2 : ¬ gasUsed ≥ 2 ^ 64 := not_le.mpr hgas
  have hrefund : meter.RefundGas meter.GasConsumed "reset the gas count"
      = (none, ⟨meter.limit, 0⟩) := by
    unfold GasMeter.RefundGas GasMeter.GasConsumed
    simp only [h1, if_false, Nat.sub_self]
  have hreset : ResetGasMeterAndConsumeGas meter gasUsed
      = (⟨meter.limit, 0⟩ : GasMeter).ConsumeGas gasUsed "apply evm transaction" := by
    unfold ResetGasMeterAndConsumeGas
    rw [hrefund]
  refine ⟨hrefund, by rw [hreset], ?_, ?_, ?_⟩
  · rw [hreset]
    unfold GasMeter.ConsumeGas
    simp only [Nat.zero_add, h2, if_false]
    by_cases hl : gasUsed > meter.limit
    · simp [hl]
    · simp [hl]
  · rw [hreset]
    unfold GasMeter.ConsumeGas
    simp only [Nat.zero_add, h2, if_false]
    by_cases hl : gasUsed > meter.limit <;> simp [hl]
  · intro hle
    rw [hreset]
    unfold GasMeter.ConsumeGas
    have hl : ¬ gasUsed > meter.limit := not_lt.mpr hle
    simp only [Nat.zero_add, h2, if_false, hl]

/-- A meter with limit `100000` and `60000` consumed: the reset to `21000` completes, the
reset to `100001` fails with the out of gas panic. -/
theorem ResetGasMeterAndConsumeGas_fails_iff_witness :
    (ResetGasMeterAndConsumeGas ⟨100000, 60000⟩ 21000).1 = none ∧
    (ResetGasMeterAndConsumeGas ⟨100000, 60000⟩ 100001).1 = some GasPanic.ErrorOutOfGas :=
  ⟨(ResetGasMeterAndConsumeGas_fails_iff ⟨100000, 60000⟩ 21000 (by decide)).2.2.2.2 (by decide),
   (ResetGasMeterAndConsumeGas_fails_iff ⟨100000, 60000⟩ 100001 (by decide)).2.2.2.1
     (by decide)⟩

/-- C10: when `leftoverGas * gasPrice` is negative, `RefundExcessGas` returns the wrapped
`ErrInvalidRefund` (it does not treat the amount as zero), the bank keeper receives no
state-changing call and the ledger, hence every balance, is unchanged, whatever the
ledger and its escrow balance are. -/
theorem RefundExcessGas_negative_refund {σ : Type} (k : Keeper σ) (ctx : σ)
    (calls : List BankCall) (msg : Message) (leftoverGas : Nat) (denom : String)
    (hneg : (leftoverGas : Int) * msg.GasPrice < 0) :
    RefundExcessGas k.recording (ctx, calls) msg leftoverGas denom
        = some (some (Error.Wrap Error.ErrInvalidRefund
            "refunded amount value cannot be negative %d"), (ctx, calls)) ∧
      RefundExcessGas k ctx msg leftoverGas denom
        = some (some (Error.Wrap Error.ErrInvalidRefund
            "refunded amount value cannot be negative %d"), ctx) ∧
      RefundExcessGas k ctx msg leftoverGas denom ≠ some (none, ctx) ∧
      (0 < leftoverGas ∧ msg.GasPrice < 0) := by
  have hR : ∀ {τ : Type} (k' : Keeper τ) (c : τ), RefundExcessGas k' c msg leftoverGas denom
      = some (some (Error.Wrap Error.ErrInvalidRefund
          "refunded amount value cannot be negative %d"), c) := by
    intro τ k' c
    unfold RefundExcessGas
    simp only [hneg, if_true]
  refine ⟨hR _ _, hR _ _, ?_, ?_⟩
  · rw [hR]
    simp
  · have hg : (0 : Int) ≤ (leftoverGas : Int) := Int.ofNat_nonneg _
    constructor
    · rcases Nat.eq_zero_or_pos leftoverGas with h0 | h0
      · subst h0
        simp at hneg
      · exact h0
    · by_contra hp
      have hp' : 0 ≤ msg.GasPrice := not_lt.mp hp
      have := mul_nonneg hg hp'
      omega

/-- Leftover gas `100` at gas price `-1`: the invalid refund error with `50` in escrow,
nothing sent and nothing changed. -/
theorem RefundExcessGas_negative_refund_witness :
    ((100 : Nat) : Int) * (-1) < 0 ∧
    RefundExcessGas (Ledger.keeper 1 "atest").recording (Ledger.funded 1 "atest" 50, [])
        ⟨7, -1, [], []⟩ 100 "atest"
      = some (some (Error.Wrap Error.ErrInvalidRefund
          "refunded amount value cannot be negative %d"), (Ledger.funded 1 "atest" 50, [])) :=
  ⟨by decide, (RefundExcessGas_negative_refund (Ledger.keeper 1 "atest")
    (Ledger.funded 1 "atest" 50) [] ⟨7, -1, [], []⟩ 100 "atest" (by decide)).1⟩

/-- C11 as stated fails when the product needs more than 256 bits: for leftover gas
`2` and gas price `2 ^ 255`, both in range, the product `2 ^ 256` makes
`sdk.NewIntFromBigInt` panic, whatever the escrow holds (here the largest `sdk.Int`), so
the width of the product does cause a failure.  (On a denomination the SDK rejects, here
`""`, nothing is compared or transferred either: the call panics in `sdk.NewCoin`.) -/
theorem RefundExcessGas_product_of_257_bits_panics :
    ((2 : Nat) < 2 ^ 64 ∧ (2 ^ 255 : Nat) < 2 ^ 256 ∧
      IsSdkInt (Int.ofNat (2 ^ 256 - 1)) ∧
      (RefundExcessGas (Ledger.keeper 1 "atest")
          (Ledger.funded 1 "atest" (Int.ofNat (2 ^ 256 - 1)))
          ⟨7, Int.ofNat (2 ^ 255), [], []⟩ 2 "atest").isNone = true) ∧
    (ValidateDenom "" = false ∧ IsSdkInt (((21000 : Nat) : Int) * 1) ∧
      (RefundExcessGas (Ledger.keeper 1 "") (Ledger.funded 1 "" 50000)
          ⟨7, 1, [], []⟩ 21000 "").isNone = true) := by
  refine ⟨⟨by decide, by decide, by decide, by decide⟩, ⟨by decide, by decide, by decide⟩⟩

/-- C11 (amended): for a positive product `r = leftoverGas * gasPrice` (in particular for
a `uint64` and an unsigned 256-bit operand) and a denomination the SDK accepts, if `r`
fits an `sdk.Int` (below `2 ^ 256`) the amount compared against the escrow balance and
the amount handed to the transfer are exactly `r`: the call fails for insufficient funds
exactly when the balance is below `r`, and otherwise the one transfer call carries
exactly `r` of `denom`; if `r` does not fit, or the SDK rejects the denomination, the
call panics before anything is compared or transferred.  No amount is ever wrapped
around or truncated. -/
theorem RefundExcessGas_exact_product {σ : Type} (k : Keeper σ) (hk : k.Lawful) (ctx : σ)
    (calls : List BankCall) (msg : Message) (leftoverGas : Nat) (denom : String)
    (hpos : 0 < (leftoverGas : Int) * msg.GasPrice) :
    (IsSdkInt ((leftoverGas : Int) * msg.GasPrice) → ValidateDenom denom = true →
      (k.balance ctx k.FeeBurnerAccount denom < (leftoverGas : Int) * msg.GasPrice →
        RefundExcessGas k.recording (ctx, calls) msg leftoverGas denom
          = some (some (Error.Wrap Error.ErrInsufficientFunds
              "fee burner account has insufficient funds (%s) to refund %s"), (ctx, calls))) ∧
      ((leftoverGas : Int) * msg.GasPrice ≤ k.balance ctx k.FeeBurnerAccount denom →
        ∃ err, RefundExcessGas k.recording (ctx, calls) msg leftoverGas denom
          = some (err, ((k.bankKeeper.SendCoinsFromModuleToAccount ctx k.FeeBurner msg.From
                [⟨denom, (leftoverGas : Int) * msg.GasPrice⟩]).2,
              calls ++ [BankCall.SendCoinsFromModuleToAccount k.FeeBurner msg.From
                [⟨denom, (leftoverGas : Int) * msg.GasPrice⟩]])))) ∧
    (¬ IsSdkInt ((leftoverGas : Int) * msg.GasPrice) →
      RefundExcessGas k.recording (ctx, calls) msg leftoverGas denom = none) ∧
    (ValidateDenom denom = false →
      RefundExcessGas k.recording (ctx, calls) msg leftoverGas denom = none) := by
  have hden : ((k.recording).bankKeeper.GetBalance (ctx, calls)
      (k.recording).FeeBurnerAccount denom).Denom = denom :=
    hk.getBalance_denom ctx k.FeeBurnerAccount denom
  refine ⟨fun hfit hdenom => ⟨fun hlt => ?_, fun hge => ?_⟩, fun hwide => ?_, fun hbad => ?_⟩
  · exact RefundExcessGas_of_short k.recording (ctx, calls) msg leftoverGas denom hden hpos
      hfit hdenom hlt
  · exact ⟨_, RefundExcessGas_of_covered k.recording (ctx, calls) msg leftoverGas denom hden
      hpos hfit hdenom hge⟩
  · exact RefundExcessGas_of_wide k.recording (ctx, calls) msg leftoverGas denom hpos hwide
  · exact RefundExcessGas_of_invalid_denom k.recording (ctx, calls) msg leftoverGas denom hpos
      hbad

/-- Leftover gas `2 ^ 32` at gas price `2 ^ 64` with `2 ^ 100` in escrow: the one
transfer carries the product `2 ^ 96`, which neither operand width can hold. -/
theorem RefundExcessGas_exact_product_witness :
    ∃ err, RefundExcessGas (Ledger.keeper 1 "atest").recording
        (Ledger.funded 1 "atest" (Int.ofNat (2 ^ 100)), [])
        ⟨7, Int.ofNat (2 ^ 64), [], []⟩ (2 ^ 32) "atest"
      = some (err, (((Ledger.keeper 1 "atest").bankKeeper.SendCoinsFromModuleToAccount
            (Ledger.funded 1 "atest" (Int.ofNat (2 ^ 100))) "fee_burner" 7
            [⟨"atest", Int.ofNat (2 ^ 96)⟩]).2,
          [BankCall.SendCoinsFromModuleToAccount "fee_burner" 7
            [⟨"atest", Int.ofNat (2 ^ 96)⟩]])) :=
  ((RefundExcessGas_exact_product (Ledger.keeper 1 "atest") (Ledger.keeper_lawful 1 "atest")
    (Ledger.funded 1 "atest" (Int.ofNat (2 ^ 100))) [] ⟨7, Int.ofNat (2 ^ 64), [], []⟩
    (2 ^ 32) "atest" (by decide)).1 (by decide) (by decide)).2 (by decide)

/-- C12 as stated fails in its case (2) when the product is too wide: for the largest
`uint64` leftover gas and the largest unsigned 256-bit gas price the product is positive
and above the escrow balance `0`, yet the call returns no error: it panics.  The same
happens in case (2) on a denomination the SDK rejects: for the denomination `""`,
leftover gas `100`, gas price `1` and an empty escrow the call panics in `sdk.NewCoin`. -/
theorem RefundExcessGas_wide_shortfall_returns_no_error :
    ((2 ^ 64 - 1 : Nat) < 2 ^ 64 ∧ (2 ^ 256 - 1 : Nat) < 2 ^ 256 ∧
      (0 : Int) < Int.ofNat (2 ^ 64 - 1) * Int.ofNat (2 ^ 256 - 1) ∧
      (Ledger.keeper 1 "atest").balance (Ledger.funded 1 "atest" 0) 1 "atest"
        < Int.ofNat (2 ^ 64 - 1) * Int.ofNat (2 ^ 256 - 1) ∧
      (RefundExcessGas (Ledger.keeper 1 "atest") (Ledger.funded 1 "atest" 0)
          ⟨7, Int.ofNat (2 ^ 256 - 1), [], []⟩ (2 ^ 64 - 1) "atest").isSome = false) ∧
    (ValidateDenom "" = false ∧ (0 : Int) < ((100 : Nat) : Int) * 1 ∧
      (Ledger.keeper 1 "").balance (Ledger.funded 1 "" 0) 1 "" < ((100 : Nat) : Int) * 1 ∧
      (RefundExcessGas (Ledger.keeper 1 "") (Ledger.funded 1 "" 0)
          ⟨7, 1, [], []⟩ 100 "").isSome = false) := by
  refine ⟨⟨by decide, by decide, by decide, by decide, by decide⟩,
    ⟨by decide, by decide, by decide, by decide⟩⟩

/-- C12 (amended): on a lawful ledger `RefundExcessGas` returns an error in exactly three
cases: (1) the product `r` is negative (`ErrInvalidRefund`); (2) `r` is positive, fits an
`sdk.Int`, the SDK accepts `denom` and the escrow balance is below `r`
(`ErrInsufficientFunds`); (3) `r` is positive, fits, the SDK accepts `denom`, the escrow
balance covers `r` and the transfer of the ledger fails, the error returned wrapping that
of the ledger.  It returns success exactly when `r = 0` or `r` is positive, fits, `denom`
is accepted, `r` is covered and the transfer succeeds.  It returns nothing (it panics)
exactly when `r` is positive and either does not fit an `sdk.Int` or the SDK rejects
`denom`. -/
theorem RefundExcessGas_error_cases {σ : Type} (k : Keeper σ) (hk : k.Lawful) (ctx : σ)
    (msg : Message) (leftoverGas : Nat) (denom : String) :
    (∀ err ctx', RefundExcessGas k ctx msg leftoverGas denom = some (some err, ctx') ↔
      ((leftoverGas : Int) * msg.GasPrice < 0 ∧
        err = Error.Wrap Error.ErrInvalidRefund "refunded amount value cannot be negative %d" ∧
        ctx' = ctx) ∨
      (0 < (leftoverGas : Int) * msg.GasPrice ∧ IsSdkInt ((leftoverGas : Int) * msg.GasPrice) ∧
        ValidateDenom denom = true ∧
        k.balance ctx k.FeeBurnerAccount denom < (leftoverGas : Int) * msg.GasPrice ∧
        err = Error.Wrap Error.ErrInsufficientFunds
          "fee burner account has insufficient funds (%s) to refund %s" ∧
        ctx' = ctx) ∨
      (0 < (leftoverGas : Int) * msg.GasPrice ∧ IsSdkInt ((leftoverGas : Int) * msg.GasPrice) ∧
        ValidateDenom denom = true ∧
        (leftoverGas : Int) * msg.GasPrice ≤ k.balance ctx k.FeeBurnerAccount denom ∧
        ∃ e, k.bankKeeper.SendCoinsFromModuleToAccount ctx k.FeeBurner msg.From
            [⟨denom, (leftoverGas : Int) * msg.GasPrice⟩] = (some e, ctx') ∧
          err = Error.Wrap e "failed to refund %d leftover gas (%s)")) ∧
    (∀ ctx', RefundExcessGas k ctx msg leftoverGas denom = some (none, ctx') ↔
      ((leftoverGas : Int) * msg.GasPrice = 0 ∧ ctx' = ctx) ∨
      (0 < (leftoverGas : Int) * msg.GasPrice ∧ IsSdkInt ((leftoverGas : Int) * msg.GasPrice) ∧
        ValidateDenom denom = true ∧
        (leftoverGas : Int) * msg.GasPrice ≤ k.balance ctx k.FeeBurnerAccount denom ∧
        k.bankKeeper.SendCoinsFromModuleToAccount ctx k.FeeBurner msg.From
            [⟨denom, (leftoverGas : Int) * msg.GasPrice⟩] = (none, ctx'))) ∧
    (RefundExcessGas k ctx msg leftoverGas denom = none ↔
      0 < (leftoverGas : Int) * msg.GasPrice ∧
        (¬ IsSdkInt ((leftoverGas : Int) * msg.GasPrice) ∨ ValidateDenom denom = false)) := by
  have hden := hk.getBalance_denom ctx k.FeeBurnerAccount denom
  by_cases hneg : (leftoverGas : Int) * msg.GasPrice < 0
  · have hnp : ¬ 0 < (leftoverGas : Int) * msg.GasPrice := by omega
    have hnz : ¬ (leftoverGas : Int) * msg.GasPrice = 0 := by omega
    rw [RefundExcessGas_of_neg k ctx msg leftoverGas denom hneg]
    refine ⟨fun err ctx' => ?_, fun ctx' => ?_, ?_⟩
    · simp only [hneg, hnp, true_and, false_and, or_false, Option.some.injEq, Prod.mk.injEq]
      constructor
      · rintro ⟨h1, h2⟩
        exact ⟨h1.symm, h2.symm⟩
      · rintro ⟨h1, h2⟩
        exact ⟨h1.symm, h2.symm⟩
    · simp [hnp, hnz]
    · simp [hnp]
  · by_cases hpos : 0 < (leftoverGas : Int) * msg.GasPrice
    · have hnz : ¬ (leftoverGas : Int) * msg.GasPrice = 0 := by omega
      by_cases hfit : IsSdkInt ((leftoverGas : Int) * msg.GasPrice)
      · cases hdenom : ValidateDenom denom with
        | false =>
          rw [RefundExcessGas_of_invalid_denom k ctx msg leftoverGas denom hpos hdenom]
          refine ⟨fun err ctx' => ?_, fun ctx' => ?_, ?_⟩
          · simp [hneg]
          · simp [hnz]
          · simp [hpos]
        | true =>
          by_cases hlt : k.balance ctx k.FeeBurnerAccount denom
              < (leftoverGas : Int) * msg.GasPrice
          · have hnge : ¬ (leftoverGas : Int) * msg.GasPrice
                ≤ k.balance ctx k.FeeBurnerAccount denom := not_le.mpr hlt
            rw [RefundExcessGas_of_short k ctx msg leftoverGas denom hden hpos hfit hdenom hlt]
            refine ⟨fun err ctx' => ?_, fun ctx' => ?_, ?_⟩
            · simp only [hneg, hpos, hfit, hlt, hnge, true_and, false_and, or_false, false_or,
                Option.some.injEq, Prod.mk.injEq]
              constructor
              · rintro ⟨h1, h2⟩
                exact ⟨h1.symm, h2.symm⟩
              · rintro ⟨h1, h2⟩
                exact ⟨h1.symm, h2.symm⟩
            · simp [hnz, hnge]
            · simp [hfit]
          · have hge := not_lt.mp hlt
            rw [RefundExcessGas_of_covered k ctx msg leftoverGas denom hden hpos hfit hdenom
              hge]
            cases hs : k.bankKeeper.SendCoinsFromModuleToAccount ctx k.FeeBurner msg.From
                [⟨denom, (leftoverGas : Int) * msg.GasPrice⟩] with
            | mk e s' =>
              cases e with
              | some e =>
                refine ⟨fun err ctx' => ?_, fun ctx' => ?_, ?_⟩
                · simp only [hneg, hpos, hfit, hlt, hge, true_and, false_and, false_or,
                    Option.map_some', Option.some.injEq, Prod.mk.injEq]
                  constructor
                  · rintro ⟨h1, h2⟩
                    exact ⟨e, ⟨rfl, h2⟩, h1.symm⟩
                  · rintro ⟨e', ⟨h1, h2⟩, h3⟩
                    subst h1
                    exact ⟨h3.symm, h2⟩
                · simp [hnz]
                · simp [hfit]
              | none =>
                refine ⟨fun err ctx' => ?_, fun ctx' => ?_, ?_⟩
                · simp [hneg, hlt]
                · simp [hnz, hpos, hfit, hge]
                · simp [hfit]
      · rw [RefundExcessGas_of_wide k ctx msg leftoverGas denom hpos hfit]
        refine ⟨fun err ctx' => ?_, fun ctx' => ?_, ?_⟩
        · simp [hneg, hfit]
        · simp [hnz, hfit]
        · simp [hpos, hfit]
    · have hzero : (leftoverGas : Int) * msg.GasPrice = 0 := by omega
      rw [RefundExcessGas_of_zero k ctx msg leftoverGas denom hzero]
      refine ⟨fun err ctx' => ?_, fun ctx' => ?_, ?_⟩
      · simp [hneg, hpos]
      · constructor
        · intro h
          simp only [Option.some.injEq, Prod.mk.injEq, true_and] at h
          exact Or.inl ⟨hzero, h.symm⟩
        · rintro (⟨_, h⟩ | ⟨hp, _⟩)
          · rw [h]
          · exact absurd hp hpos
      · simp [hpos]

/-- Sender `7` is refused by the ledger: the refund of `21000` out of `50000` fails in
the transfer, and the error returned wraps the one of the ledger. -/
theorem RefundExcessGas_error_cases_witness :
    RefundExcessGas (Ledger.keeper 1 "atest") ((Ledger.funded 1 "atest" 50000).refusing 7)
        ⟨7, 1, [], []⟩ 21000 "atest"
      = some (some (Error.Wrap Error.ErrUnauthorized "failed to refund %d leftover gas (%s)"),
          (Ledger.funded 1 "atest" 50000).refusing 7) :=
  ((RefundExcessGas_error_cases (Ledger.keeper 1 "atest") (Ledger.keeper_lawful 1 "atest")
    ((Ledger.funded 1 "atest" 50000).refusing 7) ⟨7, 1, [], []⟩ 21000 "atest").1 _ _).mpr
    (Or.inr (Or.inr ⟨by decide, by decide, by decide, by decide, Error.ErrUnauthorized, rfl,
      rfl⟩))

/-! ### The paths of `BurnConsumedGas` -/

theorem BurnConsumedGas_of_coins {σ : Type} (k : Keeper σ) (ctx : σ) (coins : List Coin)
    (hcoins : NewCoins (k.bankKeeper.GetBalance ctx k.FeeBurnerAccount (k.GetParams ctx).EvmDenom)
      = some coins) :
    BurnConsumedGas k ctx
      = some ((k.bankKeeper.BurnCoins ctx k.FeeBurner coins).1.map
            (fun err => Error.Wrap err "failed to burn FeeBurner account balance"),
          (k.bankKeeper.BurnCoins ctx k.FeeBurner coins).2) := by
  unfold BurnConsumedGas
  simp only [hcoins]
  cases hb : k.bankKeeper.BurnCoins ctx k.FeeBurner coins with
  | mk e s' =>
    cases e with
    | some e => rfl
    | none => rfl

theorem BurnConsumedGas_of_panic {σ : Type} (k : Keeper σ) (ctx : σ)
    (hcoins : NewCoins (k.bankKeeper.GetBalance ctx k.FeeBurnerAccount (k.GetParams ctx).EvmDenom)
      = none) :
    BurnConsumedGas k ctx = none := by
  unfold BurnConsumedGas
  simp only [hcoins]

/-- On a lawful ledger a call of `BurnConsumedGas` that returns found a balance that is
not negative, and it has either left every balance as it was or taken exactly that
balance from the fee burner account. -/
theorem BurnConsumedGas_balances {σ : Type} (k : Keeper σ) (hk : k.Lawful) (ctx : σ)
    (err : Option Error) (ctx' : σ) (h : BurnConsumedGas k ctx = some (err, ctx')) :
    0 ≤ k.balance ctx k.FeeBurnerAccount (k.GetParams ctx).EvmDenom ∧
    ((∀ addr d, k.balance ctx' addr d = k.balance ctx addr d) ∨
     (∀ addr d, k.balance ctx' addr d =
        k.balance ctx addr d
          - (if addr = k.FeeBurnerAccount then
              (if (k.GetParams ctx).EvmDenom = d then
                k.balance ctx k.FeeBurnerAccount (k.GetParams ctx).EvmDenom else 0)
             else 0))) := by
  have hden := hk.getBalance_denom ctx k.FeeBurnerAccount (k.GetParams ctx).EvmDenom
  cases hc : NewCoins (k.bankKeeper.GetBalance ctx k.FeeBurnerAccount (k.GetParams ctx).EvmDenom) with
  | none =>
    rw [BurnConsumedGas_of_panic k ctx hc] at h
    cases h
  | some coins =>
    refine ⟨NewCoins_nonneg _ coins hc, ?_⟩
    rw [BurnConsumedGas_of_coins k ctx coins hc] at h
    cases hb : k.bankKeeper.BurnCoins ctx k.FeeBurner coins with
    | mk e s' =>
      rw [hb] at h
      cases e with
      | some e =>
        simp at h
        obtain ⟨_, h2⟩ := h
        subst h2
        exact Or.inl (hk.burn_fail ctx coins e s' hb)
      | none =>
        simp at h
        obtain ⟨_, h2⟩ := h
        subst h2
        refine Or.inr ?_
        intro addr d
        rw [hk.burn_ok ctx coins s' hb addr d, AmountOf_NewCoins _ coins hc d, hden]
        rfl

/-- The ledger that disallows a zero-balance burn honours the contract of the Ledger
collaborator. -/
theorem Ledger.strictKeeper_lawful (escrow : Address) (evmDenom : String) :
    (Ledger.strictKeeper escrow evmDenom).Lawful := by
  have hl := Ledger.keeper_lawful escrow evmDenom
  refine ⟨hl.getBalance_denom, hl.send_ok, hl.send_fail, ?_, ?_⟩
  · intro ctx amt ctx' h
    cases amt with
    | nil => simp [Ledger.strictKeeper] at h
    | cons c cs =>
      have h' : (Ledger.keeper escrow evmDenom).bankKeeper.BurnCoins ctx
          (Ledger.keeper escrow evmDenom).FeeBurner (c :: cs) = (none, ctx') := h
      exact hl.burn_ok ctx (c :: cs) ctx' h'
  · intro ctx amt err ctx' h
    cases amt with
    | nil =>
      have h2 : ctx = ctx' := by
        simp [Ledger.strictKeeper] at h
        exact h.2
      subst h2
      intro addr denom
      rfl
    | cons c cs =>
      have h' : (Ledger.keeper escrow evmDenom).bankKeeper.BurnCoins ctx
          (Ledger.keeper escrow evmDenom).FeeBurner (c :: cs) = (some err, ctx') := h
      exact hl.burn_fail ctx (c :: cs) err ctx' h'

/-- C13: `BurnConsumedGas` returns an error exactly when the burn of the ledger,
called with the coins built from the escrow balance, returns one, and the error returned
wraps that of the ledger; it returns success exactly when that burn succeeds; in both
cases the ledger it leaves is the one the burn call left, and on a lawful ledger a failed
call has changed no balance, so nothing was burnt. -/
theorem BurnConsumedGas_error_iff {σ : Type} (k : Keeper σ) (hk : k.Lawful) (ctx : σ) :
    (∀ err ctx', BurnConsumedGas k ctx = some (some err, ctx') ↔
      ∃ coins e,
        NewCoins (k.bankKeeper.GetBalance ctx k.FeeBurnerAccount (k.GetParams ctx).EvmDenom)
          = some coins ∧
        k.bankKeeper.BurnCoins ctx k.FeeBurner coins = (some e, ctx') ∧
        err = Error.Wrap e "failed to burn FeeBurner account balance") ∧
    (∀ ctx', BurnConsumedGas k ctx = some (none, ctx') ↔
      ∃ coins,
        NewCoins (k.bankKeeper.GetBalance ctx k.FeeBurnerAccount (k.GetParams ctx).EvmDenom)
          = some coins ∧
        k.bankKeeper.BurnCoins ctx k.FeeBurner coins = (none, ctx')) ∧
    (∀ err ctx', BurnConsumedGas k ctx = some (some err, ctx') →
      ∀ addr d, k.balance ctx' addr d = k.balance ctx addr d) := by
  have hthird : ∀ err ctx', BurnConsumedGas k ctx = some (some err, ctx') →
      ∀ addr d, k.balance ctx' addr d = k.balance ctx addr d := by
    intro err ctx' h
    cases hc : NewCoins
        (k.bankKeeper.GetBalance ctx k.FeeBurnerAccount (k.GetParams ctx).EvmDenom) with
    | none =>
      rw [BurnConsumedGas_of_panic k ctx hc] at h
      cases h
    | some coins =>
      rw [BurnConsumedGas_of_coins k ctx coins hc] at h
      cases hb : k.bankKeeper.BurnCoins ctx k.FeeBurner coins with
      | mk e s' =>
        rw [hb] at h
        cases e with
        | some e =>
          simp at h
          obtain ⟨_, h2⟩ := h
          subst h2
          exact hk.burn_fail ctx coins e s' hb
        | none => simp at h
  refine ⟨fun err ctx' => ?_, fun ctx' => ?_, hthird⟩
  · cases hc : NewCoins
        (k.bankKeeper.GetBalance ctx k.FeeBurnerAccount (k.GetParams ctx).EvmDenom) with
    | none =>
      rw [BurnConsumedGas_of_panic k ctx hc]
      simp
    | some coins =>
      rw [BurnConsumedGas_of_coins k ctx coins hc]
      cases hb : k.bankKeeper.BurnCoins ctx k.FeeBurner coins with
      | mk e s' =>
        cases e with
        | some e =>
          simp only [Option.map_some', Option.some.injEq, Prod.mk.injEq]
          constructor
          · rintro ⟨h1, h2⟩
            exact ⟨coins, e, rfl, by rw [hb, h2], h1.symm⟩
          · rintro ⟨coins', e', h1, h2, h3⟩
            subst h1
            rw [hb] at h2
            simp only [Prod.mk.injEq, Option.some.injEq] at h2
            rw [h3, h2.1]
            exact ⟨rfl, h2.2⟩
        | none =>
          simp only [Option.map_none', Option.some.injEq, Prod.mk.injEq]
          constructor
          · rintro ⟨h1, _⟩
            cases h1
          · rintro ⟨coins', e', h1, h2, _⟩
            subst h1
            rw [hb] at h2
            simp at h2
  · cases hc : NewCoins
        (k.bankKeeper.GetBalance ctx k.FeeBurnerAccount (k.GetParams ctx).EvmDenom) with
    | none =>
      rw [BurnConsumedGas_of_panic k ctx hc]
      simp
    | some coins =>
      rw [BurnConsumedGas_of_coins k ctx coins hc]
      cases hb : k.bankKeeper.BurnCoins ctx k.FeeBurner coins with
      | mk e s' =>
        cases e with
        | some e =>
          simp only [Option.map_some', Option.some.injEq, Prod.mk.injEq]
          constructor
          · rintro ⟨h1, _⟩
            cases h1
          · rintro ⟨coins', h1, h2⟩
            subst h1
            rw [hb] at h2
            simp at h2
        | none =>
          simp only [Option.map_none', Option.some.injEq, Prod.mk.injEq, true_and]
          constructor
          · intro h2
            exact ⟨coins, rfl, by rw [hb, h2]⟩
          · rintro ⟨coins', h1, h2⟩
            subst h1
            rw [hb] at h2
            simp only [Prod.mk.injEq, true_and] at h2
            exact h2

/-- A ledger that disallows the zero-balance burn, with an empty escrow: the error of
`BurnConsumedGas` wraps the one of the ledger and the ledger is as before. -/
theorem BurnConsumedGas_error_iff_witness :
    BurnConsumedGas (Ledger.strictKeeper 1 "atest") (Ledger.funded 1 "atest" 0)
      = some (some (Error.Wrap Error.ErrUnauthorized "failed to burn FeeBurner account balance"),
          Ledger.funded 1 "atest" 0) :=
  ((BurnConsumedGas_error_iff (Ledger.strictKeeper 1 "atest")
    (Ledger.strictKeeper_lawful 1 "atest") (Ledger.funded 1 "atest" 0)).1 _ _).mpr
    ⟨[], Error.ErrUnauthorized, by decide, rfl, rfl⟩

/-- C14: on a lawful ledger, if the escrow balance in a denomination is not negative
before `RefundExcessGas` (with any input) or `BurnConsumedGas`, it is not negative after
the call returns; a refund that succeeds with a positive amount found the balance at
least as large as the amount, and a burn that succeeds leaves exactly `0` of the fee
denomination. -/
theorem escrow_balance_stays_nonneg {σ : Type} (k : Keeper σ) (hk : k.Lawful) (ctx : σ)
    (msg : Message) (leftoverGas : Nat) (denom : String) (d : String)
    (hnn : 0 ≤ k.balance ctx k.FeeBurnerAccount d) :
    (∀ err ctx', RefundExcessGas k ctx msg leftoverGas denom = some (err, ctx') →
      0 ≤ k.balance ctx' k.FeeBurnerAccount d) ∧
    (∀ err ctx', BurnConsumedGas k ctx = some (err, ctx') →
      0 ≤ k.balance ctx' k.FeeBurnerAccount d) ∧
    (∀ ctx', RefundExcessGas k ctx msg leftoverGas denom = some (none, ctx') →
      0 < (leftoverGas : Int) * msg.GasPrice →
      (leftoverGas : Int) * msg.GasPrice ≤ k.balance ctx k.FeeBurnerAccount denom) ∧
    (∀ ctx', BurnConsumedGas k ctx = some (none, ctx') →
      k.balance ctx' k.FeeBurnerAccount (k.GetParams ctx).EvmDenom = 0) := by
  refine ⟨?_, ?_, ?_, ?_⟩
  · intro err ctx' h
    rcases RefundExcessGas_balances k hk ctx msg leftoverGas denom err ctx' h with hsame | hmove
    · rw [hsame]
      exact hnn
    · obtain ⟨hpos, hge, hbal⟩ := hmove
      rw [hbal k.FeeBurnerAccount d]
      simp only [if_true]
      by_cases hd : denom = d
      · subst hd
        by_cases hf : k.FeeBurnerAccount = msg.From
        · simp only [hf, if_true]
          rw [hf] at hnn
          omega
        · simp only [hf, if_false, if_true]
          omega
      · simp only [hd, if_false]
        by_cases hf : k.FeeBurnerAccount = msg.From
        · simp only [hf, if_true]
          rw [hf] at hnn
          omega
        · simp only [hf, if_false]
          omega
  · intro err ctx' h
    obtain ⟨hb0, hsame | hburn⟩ := BurnConsumedGas_balances k hk ctx err ctx' h
    · rw [hsame]
      exact hnn
    · rw [hburn k.FeeBurnerAccount d]
      simp only [if_true]
      by_cases hd : (k.GetParams ctx).EvmDenom = d
      · subst hd
        simp only [if_true]
        omega
      · simp only [hd, if_false]
        omega
  · intro ctx' h hpos
    by_contra hlt
    have hlt' := not_le.mp hlt
    have hden := hk.getBalance_denom ctx k.FeeBurnerAccount denom
    by_cases hfit : IsSdkInt ((leftoverGas : Int) * msg.GasPrice)
    · cases hdenom : ValidateDenom denom with
      | true =>
        rw [RefundExcessGas_of_short k ctx msg leftoverGas denom hden hpos hfit hdenom hlt'] at h
        simp at h
      | false =>
        rw [RefundExcessGas_of_invalid_denom k ctx msg leftoverGas denom hpos hdenom] at h
        cases h
    · rw [RefundExcessGas_of_wide k ctx msg leftoverGas denom hpos hfit] at h
      cases h
  · intro ctx' h
    have hden := hk.getBalance_denom ctx k.FeeBurnerAccount (k.GetParams ctx).EvmDenom
    cases hc : NewCoins
        (k.bankKeeper.GetBalance ctx k.FeeBurnerAccount (k.GetParams ctx).EvmDenom) with
    | none =>
      rw [BurnConsumedGas_of_panic k ctx hc] at h
      cases h
    | some coins =>
      rw [BurnConsumedGas_of_coins k ctx coins hc] at h
      cases hb : k.bankKeeper.BurnCoins ctx k.FeeBurner coins with
      | mk e s' =>
        rw [hb] at h
        cases e with
        | some e => simp at h
        | none =>
          simp at h
          subst h
          rw [hk.burn_ok ctx coins s' hb k.FeeBurnerAccount (k.GetParams ctx).EvmDenom,
            AmountOf_NewCoins _ coins hc (k.GetParams ctx).EvmDenom, hden]
          simp [Keeper.balance]

/-- A successful refund of `21000` out of `50000`: the escrow balance is not negative
afterwards. -/
theorem escrow_balance_stays_nonneg_witness :
    0 ≤ (Ledger.keeper 1 "atest").balance
      ((Ledger.keeper 1 "atest").bankKeeper.SendCoinsFromModuleToAccount
        (Ledger.funded 1 "atest" 50000) "fee_burner" 7 [⟨"atest", 21000⟩]).2 1 "atest" :=
  (escrow_balance_stays_nonneg (Ledger.keeper 1 "atest") (Ledger.keeper_lawful 1 "atest")
    (Ledger.funded 1 "atest" 50000) ⟨7, 1, [], []⟩ 21000 "atest" "atest" (by decide)).1
    none _ rfl

/-- C15: on a lawful ledger, whenever `RefundExcessGas` returns, every balance other than
those of the fee burner account and of the sender in `denom` is the same before and after
the call: every balance of any other account and every balance in any other
denomination. -/
theorem RefundExcessGas_frame {σ : Type} (k : Keeper σ) (hk : k.Lawful) (ctx : σ)
    (msg : Message) (leftoverGas : Nat) (denom : String) (err : Option Error) (ctx' : σ)
    (h : RefundExcessGas k ctx msg leftoverGas denom = some (err, ctx')) :
    ∀ addr d, (d ≠ denom ∨ (addr ≠ k.FeeBurnerAccount ∧ addr ≠ msg.From)) →
      k.balance ctx' addr d = k.balance ctx addr d := by
  intro addr d hout
  rcases RefundExcessGas_balances k hk ctx msg leftoverGas denom err ctx' h with hsame | hmove
  · exact hsame addr d
  · obtain ⟨_, _, hbal⟩ := hmove
    rw [hbal addr d]
    rcases hout with hd | ⟨ha, hf⟩
    · have hd' : ¬ denom = d := fun e => hd e.symm
      simp [hd']
    · simp [ha, hf]

/-- A refund of `21000` `"atest"` from escrow `1` to sender `7`: the balance of the
bystander `9` in `"atest"` and the balance of the sender in `"btest"` are as before. -/
theorem RefundExcessGas_frame_witness :
    (Ledger.keeper 1 "atest").balance
        ((Ledger.keeper 1 "atest").bankKeeper.SendCoinsFromModuleToAccount
          (Ledger.funded 1 "atest" 50000) "fee_burner" 7 [⟨"atest", 21000⟩]).2 9 "atest"
      = (Ledger.keeper 1 "atest").balance (Ledger.funded 1 "atest" 50000) 9 "atest" ∧
    (Ledger.keeper 1 "atest").balance
        ((Ledger.keeper 1 "atest").bankKeeper.SendCoinsFromModuleToAccount
          (Ledger.funded 1 "atest" 50000) "fee_burner" 7 [⟨"atest", 21000⟩]).2 7 "btest"
      = (Ledger.keeper 1 "atest").balance (Ledger.funded 1 "atest" 50000) 7 "btest" :=
  have h := RefundExcessGas_frame (Ledger.keeper 1 "atest") (Ledger.keeper_lawful 1 "atest")
    (Ledger.funded 1 "atest" 50000) ⟨7, 1, [], []⟩ 21000 "atest" none _ rfl
  ⟨h 9 "atest" (Or.inr (by decide)), h 7 "btest" (Or.inl (by decide))⟩

/-- The gas meter of the context is none of the business of `RefundExcessGas`: with a
bank keeper that makes no call on the meter, the call returns what it returns without
the meter, and the meter as it found it. -/
theorem RefundExcessGas_withGasMeter {σ : Type} (k : Keeper σ) (ctx : σ) (meter : GasMeter)
    (msg : Message) (leftoverGas : Nat) (denom : String) :
    RefundExcessGas k.withGasMeter (ctx, meter) msg leftoverGas denom
      = (RefundExcessGas k ctx msg leftoverGas denom).map (fun r => (r.1, (r.2, meter))) := by
  unfold RefundExcessGas
  simp only [Keeper.withGasMeter]
  split_ifs
  · rfl
  · cases NewIntFromBigInt ((leftoverGas : Int) * msg.GasPrice) with
    | none => rfl
    | some amount =>
      simp only []
      cases NewCoin denom amount with
      | none => rfl
      | some refundCoin =>
        simp only []
        cases (k.bankKeeper.GetBalance ctx k.FeeBurnerAccount denom).IsLT refundCoin with
        | none => rfl
        | some b =>
          cases b with
          | true => rfl
          | false =>
            simp only []
            cases NewCoins refundCoin with
            | none => rfl
            | some coins =>
              simp only []
              cases hs : k.bankKeeper.SendCoinsFromModuleToAccount ctx k.FeeBurner
                  msg.From coins with
              | mk e s' =>
                cases e with
                | some e => rfl
                | none => rfl
  · rfl

/-- C16 fails on the code: a refund of `21000` leftover gas at gas price `1`, on a meter
with limit `100000` that has consumed the intrinsic gas `21000`, returns no error and
leaves the meter at `21000` consumed, not at the gas used by the execution (`79000`);
the sibling `ResetGasMeterAndConsumeGas` is what sets that value. -/
theorem RefundExcessGas_gas_meter_untouched :
    (RefundExcessGas (Ledger.keeper 1 "atest").withGasMeter
        (Ledger.funded 1 "atest" 50000, ⟨100000, 21000⟩) ⟨7, 1, [], []⟩ 21000 "atest").map
      (fun r => (r.1, r.2.2.GasConsumed)) = some (none, 21000) ∧
    (ResetGasMeterAndConsumeGas ⟨100000, 21000⟩ 79000).2.GasConsumed = 79000 := by
  refine ⟨by decide, by decide⟩

/-- C18: `GetEthIntrinsicGas` depends on the payload, the access list,
`isContractCreation` and the two fork flags only: two calls that agree on these return
the same gas value and the same error, whatever the two heights and chain configurations
are; and the result is the pair the cost computation returned, its error unchanged. -/
theorem GetEthIntrinsicGas_deterministic {ε : Type}
    (intrinsicGas : List Nat → List (Address × List Nat) → Bool → Bool → Bool → Nat × Option ε)
    (height₁ height₂ : Int) (msg₁ msg₂ : Message) (cfg₁ cfg₂ : ChainConfig)
    (isContractCreation : Bool)
    (hdata : msg₁.Data = msg₂.Data) (hlist : msg₁.AccessList = msg₂.AccessList)
    (hhomestead : cfg₁.IsHomestead height₁ = cfg₂.IsHomestead height₂)
    (histanbul : cfg₁.IsIstanbul height₁ = cfg₂.IsIstanbul height₂) :
    GetEthIntrinsicGas intrinsicGas height₁ msg₁ cfg₁ isContractCreation
        = GetEthIntrinsicGas intrinsicGas height₂ msg₂ cfg₂ isContractCreation ∧
      GetEthIntrinsicGas intrinsicGas height₁ msg₁ cfg₁ isContractCreation
        = intrinsicGas msg₁.Data msg₁.AccessList isContractCreation
            (cfg₁.IsHomestead height₁) (cfg₁.IsIstanbul height₁) ∧
      (∀ e, (intrinsicGas msg₁.Data msg₁.AccessList isContractCreation
            (cfg₁.IsHomestead height₁) (cfg₁.IsIstanbul height₁)).2 = some e →
        (GetEthIntrinsicGas intrinsicGas height₁ msg₁ cfg₁ isContractCreation).2 = some e ∧
        (GetEthIntrinsicGas intrinsicGas height₂ msg₂ cfg₂ isContractCreation).2 = some e) := by
  have h1 : GetEthIntrinsicGas intrinsicGas height₁ msg₁ cfg₁ isContractCreation
      = intrinsicGas msg₁.Data msg₁.AccessList isContractCreation
          (cfg₁.IsHomestead height₁) (cfg₁.IsIstanbul height₁) := rfl
  have h2 : GetEthIntrinsicGas intrinsicGas height₂ msg₂ cfg₂ isContractCreation
      = intrinsicGas msg₁.Data msg₁.AccessList isContractCreation
          (cfg₁.IsHomestead height₁) (cfg₁.IsIstanbul height₁) := by
    rw [hdata, hlist, hhomestead, histanbul]
    rfl
  refine ⟨by rw [h1, h2], h1, ?_⟩
  intro e he
  rw [h1, h2]
  exact ⟨he, he⟩

/-- Heights `20` and `5000000` with forks at blocks `10` and `15`, a payload of three
bytes and two senders: both calls return `21000 + 2 * 16 + 4` and no error. -/
theorem GetEthIntrinsicGas_deterministic_witness :
    GetEthIntrinsicGas IntrinsicGas 20 ⟨7, 1, [1, 0, 255], []⟩ ⟨some 10, some 15⟩ false
        = GetEthIntrinsicGas IntrinsicGas 5000000 ⟨8, 2, [1, 0, 255], []⟩ ⟨some 10, some 15⟩
            false ∧
      GetEthIntrinsicGas IntrinsicGas 20 ⟨7, 1, [1, 0, 255], []⟩ ⟨some 10, some 15⟩ false
        = (21036, none) :=
  have h := GetEthIntrinsicGas_deterministic IntrinsicGas 20 5000000
    ⟨7, 1, [1, 0, 255], []⟩ ⟨8, 2, [1, 0, 255], []⟩ ⟨some 10, some 15⟩ ⟨some 10, some 15⟩
    false rfl rfl (by decide) (by decide)
  ⟨h.1, h.2.1.trans (by decide)⟩

/-- C19: `GasToRefund` checks nothing about `refundQuotient`: for every non-zero quotient
it returns a value, and for the quotient `0` it returns none, whatever `availableRefund`
and `gasConsumed` are, never `0` or `availableRefund`. -/
theorem GasToRefund_total_iff (availableRefund gasConsumed refundQuotient : Nat) :
    (refundQuotient ≠ 0 →
      ∃ refund, GasToRefund availableRefund gasConsumed refundQuotient = some refund) ∧
    (refundQuotient = 0 → GasToRefund availableRefund gasConsumed refundQuotient = none) ∧
    GasToRefund availableRefund gasConsumed 0 = none ∧
    GasToRefund availableRefund gasConsumed 0 ≠ some 0 ∧
    GasToRefund availableRefund gasConsumed 0 ≠ some availableRefund := by
  have hz : GasToRefund availableRefund gasConsumed 0 = none := by
    simp [GasToRefund]
  refine ⟨?_, ?_, hz, ?_, ?_⟩
  · intro hq
    unfold GasToRefund
    by_cases h : gasConsumed / refundQuotient > availableRefund
    · exact ⟨availableRefund, by simp [hq, h]⟩
    · exact ⟨gasConsumed / refundQuotient, by simp [hq, h]⟩
  · intro hq
    subst hq
    exact hz
  · rw [hz]
    simp
  · rw [hz]
    simp

/-- The quotient `5` gives a value, the quotient `0` gives none. -/
theorem GasToRefund_total_iff_witness :
    (∃ refund, GasToRefund 10 100 5 = some refund) ∧ GasToRefund 10 100 0 = none :=
  ⟨(GasToRefund_total_iff 10 100 5).1 (by decide), (GasToRefund_total_iff 10 100 0).2.1 rfl⟩

/-- C20: for every `refundQuotient >= 1`, `GasToRefund` returns a value that is at most
`gasConsumed`, so taking it off the gas consumed cannot underflow, and the value is `0`
whenever `gasConsumed < refundQuotient`. -/
theorem GasToRefund_le_gasConsumed (availableRefund gasConsumed refundQuotient : Nat)
    (hq : 1 ≤ refundQuotient) :
    ∃ refund, GasToRefund availableRefund gasConsumed refundQuotient = some refund ∧
      refund ≤ gasConsumed ∧
      gasConsumed - refund + refund = gasConsumed ∧
      (gasConsumed < refundQuotient → refund = 0) := by
  have hne : refundQuotient ≠ 0 := by omega
  have hdiv : gasConsumed / refundQuotient ≤ gasConsumed := Nat.div_le_self _ _
  unfold GasToRefund
  by_cases h : gasConsumed / refundQuotient > availableRefund
  · refine ⟨availableRefund, by simp [hne, h], by omega, by omega, ?_⟩
    intro hlt
    have h0 : gasConsumed / refundQuotient = 0 := Nat.div_eq_of_lt hlt
    omega
  · refine ⟨gasConsumed / refundQuotient, by simp [hne, h], hdiv, by omega, ?_⟩
    intro hlt
    exact Nat.div_eq_of_lt hlt

/-- With `3` gas consumed and the quotient `5` nothing is refunded; with `100` consumed
the refund `10` is below the gas consumed. -/
theorem GasToRefund_le_gasConsumed_witness :
    (∃ refund, GasToRefund 10 3 5 = some refund ∧ refund ≤ 3 ∧ 3 - refund + refund = 3 ∧
      ((3 : Nat) < 5 → refund = 0)) ∧
    GasToRefund 10 3 5 = some 0 ∧ GasToRefund 10 100 5 = some 10 :=
  ⟨GasToRefund_le_gasConsumed 10 3 5 (by decide), by decide, by decide⟩

end Ethermint
